import Mathlib

/-!
# Verification of the ton-pvp-app custodial ledger and withdrawal flow

Shallow embedding of the repository's money-handling code:

* `tonToNanoBig` / `nanoToTonStr` (server.js, withdraw_routes.js) and
  `nanoFromTon` / `tonFromNano` (the unnamed poller helper file) — decimal
  TON-string ↔ nanoton conversion.  A decimal string `"a.d₁…d_k"` is
  embedded as the pair `(a, [d₁,…,d_k])` of its integer part (as read by
  `BigInt`) and its list of fractional digits; the empty digit list is a
  string with no decimal point.
* the ledger / withdrawal / deposit store (pg_schema.sql, db.js) and the
  route handlers of withdraw_routes.js, server.js and poller.js as state
  transformers over that store;
* the two concurrent-approval code paths (hardened `FOR UPDATE` variant
  and the first no-lock variant) as small-step machines whose atomic
  steps are the source's SQL transactions, run under an arbitrary
  interleaving schedule;
* the IEEE-754 binary64 rounding performed by JavaScript's `Number(...)`
  on decimal literals, as exact rational round-to-nearest-even with a
  53-bit significand (sub-normals and overflow are irrelevant at the
  magnitudes involved).
-/

/-! ## Decimal string ↔ nanoton conversion (source: server.js 98-113,
    withdraw_routes.js 11-15, unnamed poller helpers 3-19) -/

/-- `(b + '000000000').slice(0, 9)` from `tonToNanoBig`: pad the fractional
digit list with zeros on the right and keep the first 9 digits. -/
def padSlice9 (b : List Nat) : List Nat :=
  (b ++ List.replicate 9 0).take 9

/-- Value of a big-endian digit list (what `BigInt(frac)` returns on the
padded 9-digit fractional block). -/
def digitsVal (l : List Nat) : Nat :=
  l.foldl (fun acc d => acc * 10 + d) 0

/-- `tonToNanoBig` (server.js 98-104): `BigInt(a) * 10^9 + BigInt((b +
'000000000').slice(0,9))` on the decimal string `(a, b)`.  The source
regex `^\d+(\.\d+)?$` restricts inputs to digit strings, which the
`(Nat × List Nat)` encoding enforces. -/
def tonToNanoBig (a : Nat) (b : List Nat) : Nat :=
  a * 1000000000 + digitsVal (padSlice9 b)

/-- The 9 big-endian decimal digits of `n % 10^9`, i.e.
`(abs % 1000000000n).toString().padStart(9, '0')` from `nanoToTonStr`. -/
def pad9Digits (n : Nat) : List Nat :=
  [n / 100000000 % 10, n / 10000000 % 10, n / 1000000 % 10, n / 100000 % 10,
   n / 10000 % 10, n / 1000 % 10, n / 100 % 10, n / 10 % 10, n % 10]

/-- `.replace(/0+$/, '')` on a digit string: drop all trailing zeros. -/
def dropTrailingZeros (l : List Nat) : List Nat :=
  (l.reverse.dropWhile (· = 0)).reverse

/-- `nanoToTonStr` (server.js 106-113) on a non-negative nanoton amount:
whole part `n / 10^9` and fractional digit list `(n % 10^9)` padded to 9
digits with trailing zeros removed; an empty fractional list means the
produced string has no decimal point. -/
def nanoToTonStr (n : Nat) : Nat × List Nat :=
  (n / 1000000000, dropTrailingZeros (pad9Digits (n % 1000000000)))

/-- Digits of a decimal-string fractional part are below 10. -/
def DigitsOk (b : List Nat) : Prop := ∀ d ∈ b, d < 10

instance (b : List Nat) : Decidable (DigitsOk b) :=
  inferInstanceAs (Decidable (∀ d ∈ b, d < 10))

/-! Arithmetic lemmas for the round-trip claims. -/

theorem digitsVal_append (l₁ l₂ : List Nat) :
    digitsVal (l₁ ++ l₂) = digitsVal l₁ * 10 ^ l₂.length + digitsVal l₂ := by
  induction l₂ using List.reverseRecOn with
  | nil => simp [digitsVal]
  | append_singleton xs x ih =>
      unfold digitsVal at *
      rw [← List.append_assoc]
      simp only [List.foldl_append, List.foldl_cons, List.foldl_nil] at *
      rw [ih]
      simp only [List.length_append, List.length_cons, List.length_nil]
      ring

theorem digitsVal_replicate_zero (k : Nat) :
    digitsVal (List.replicate k 0) = 0 := by
  induction k with
  | zero => rfl
  | succ n ih =>
      rw [List.replicate_succ]
      simpa [digitsVal] using ih

theorem digitsVal_lt (b : List Nat) (h : DigitsOk b) :
    digitsVal b < 10 ^ b.length := by
  induction b using List.reverseRecOn with
  | nil => simp [digitsVal]
  | append_singleton xs x ih =>
      have hx : x < 10 := h x (by simp)
      have hxs : DigitsOk xs := fun d hd => h d (by simp [hd])
      have := ih hxs
      rw [digitsVal_append]
      simp only [List.length_append, List.length_cons, List.length_nil, digitsVal,
        List.foldl_cons, List.foldl_nil]
      calc digitsVal xs * 10 ^ 1 + (0 * 10 + x)
          < digitsVal xs * 10 + 10 := by omega
        _ ≤ 10 ^ xs.length * 10 := by
            have : digitsVal xs + 1 ≤ 10 ^ xs.length := this
            nlinarith
        _ = 10 ^ (xs.length + 1) := by ring

/-- `padSlice9` of a ≤9-digit list is the list padded to length 9. -/
theorem padSlice9_eq (b : List Nat) (hlen : b.length ≤ 9) :
    padSlice9 b = b ++ List.replicate (9 - b.length) 0 := by
  unfold padSlice9
  rw [List.take_append_eq_append_take, List.take_of_length_le hlen,
    List.take_replicate]
  have : min (9 - b.length) 9 = 9 - b.length := by omega
  rw [this]

theorem digitsVal_padSlice9 (b : List Nat) (hlen : b.length ≤ 9) :
    digitsVal (padSlice9 b) = digitsVal b * 10 ^ (9 - b.length) := by
  rw [padSlice9_eq b hlen, digitsVal_append, digitsVal_replicate_zero,
    List.length_replicate]
  omega

theorem padSlice9_length (b : List Nat) (hlen : b.length ≤ 9) :
    (padSlice9 b).length = 9 := by
  rw [padSlice9_eq b hlen]
  simp only [List.length_append, List.length_replicate]
  omega

/-- Reading back the 9 padded digits of a value below `10^9`. -/
theorem pad9Digits_digitsVal (l : List Nat) (h : DigitsOk l) (hlen : l.length = 9) :
    pad9Digits (digitsVal l) = l := by
  match l, hlen with
  | [d0, d1, d2, d3, d4, d5, d6, d7, d8], _ =>
    have h0 : d0 < 10 := h d0 (by simp)
    have h1 : d1 < 10 := h d1 (by simp)
    have h2 : d2 < 10 := h d2 (by simp)
    have h3 : d3 < 10 := h d3 (by simp)
    have h4 : d4 < 10 := h d4 (by simp)
    have h5 : d5 < 10 := h d5 (by simp)
    have h6 : d6 < 10 := h d6 (by simp)
    have h7 : d7 < 10 := h d7 (by simp)
    have h8 : d8 < 10 := h d8 (by simp)
    have hv : digitsVal [d0, d1, d2, d3, d4, d5, d6, d7, d8]
        = ((((((((d0 * 10 + d1) * 10 + d2) * 10 + d3) * 10 + d4) * 10 + d5)
            * 10 + d6) * 10 + d7) * 10 + d8) := by
      simp [digitsVal]
    unfold pad9Digits
    rw [hv]
    simp only [List.cons.injEq, and_true]
    refine ⟨?_, ?_, ?_, ?_, ?_, ?_, ?_, ?_, ?_⟩ <;> omega

/-- The value of the 9 padded digits of `r < 10^9` is `r` itself. -/
theorem digitsVal_pad9Digits (r : Nat) (hr : r < 1000000000) :
    digitsVal (pad9Digits r) = r := by
  unfold pad9Digits digitsVal
  simp only [List.foldl_cons, List.foldl_nil]
  omega

theorem pad9Digits_length (r : Nat) : (pad9Digits r).length = 9 := by
  simp [pad9Digits]

theorem pad9Digits_digitsOk (r : Nat) : DigitsOk (pad9Digits r) := by
  intro d hd
  simp only [pad9Digits, List.mem_cons, List.not_mem_nil, or_false] at hd
  rcases hd with h | h | h | h | h | h | h | h | h <;>
    exact h ▸ Nat.mod_lt _ (by norm_num)

/-- Restoring the dropped trailing zeros by re-padding. -/
theorem dropTrailingZeros_padBack (l : List Nat) :
    dropTrailingZeros l
      ++ List.replicate (l.length - (dropTrailingZeros l).length) 0 = l := by
  unfold dropTrailingZeros
  have hsplit := List.takeWhile_append_dropWhile
    (p := fun x => decide (x = 0)) (l := l.reverse)
  have hlen : (l.reverse.takeWhile (fun x => decide (x = 0))).length
      + (l.reverse.dropWhile (fun x => decide (x = 0))).length = l.length := by
    have := congrArg List.length hsplit
    rw [List.length_append, List.length_reverse] at this
    exact this
  have h3 : (l.reverse.takeWhile (fun x => decide (x = 0))).reverse
      = List.replicate ((l.reverse.takeWhile (fun x => decide (x = 0))).length) 0 := by
    rw [← List.length_reverse (l.reverse.takeWhile _)]
    rw [List.eq_replicate_length]
    intro b hb
    rw [List.mem_reverse] at hb
    simpa using List.mem_takeWhile_imp hb
  have key : (l.reverse.dropWhile (fun x => decide (x = 0))).reverse
      ++ (l.reverse.takeWhile (fun x => decide (x = 0))).reverse = l := by
    rw [← List.reverse_append, hsplit, List.reverse_reverse]
  have h4 : List.replicate
        (l.length - (l.reverse.dropWhile (fun x => decide (x = 0))).reverse.length) 0
      = (l.reverse.takeWhile (fun x => decide (x = 0))).reverse := by
    rw [h3, List.length_reverse]
    congr 1
    omega
  rw [h4, key]

/-- `nanoFromTon` (unnamed poller helper file, lines 3-9) computes the same
value as `tonToNanoBig`: `BigInt(a) * 10^9 + BigInt((b + '000000000').slice(0,9))`. -/
def nanoFromTon (a : Nat) (b : List Nat) : Nat :=
  a * 1000000000 + digitsVal (padSlice9 b)

/-- `tonFromNano` (unnamed poller helper file, lines 11-19), identical
algorithm to `nanoToTonStr`. -/
def tonFromNano (n : Nat) : Nat × List Nat :=
  (n / 1000000000, dropTrailingZeros (pad9Digits (n % 1000000000)))

theorem nanoFromTon_eq_tonToNanoBig : nanoFromTon = tonToNanoBig := rfl

theorem tonFromNano_eq_nanoToTonStr : tonFromNano = nanoToTonStr := rfl

theorem digitsOk_padSlice9 (b : List Nat) (h : DigitsOk b) :
    DigitsOk (padSlice9 b) := by
  intro d hd
  unfold padSlice9 at hd
  have hd' := List.mem_of_mem_take hd
  rcases List.mem_append.mp hd' with h1 | h2
  · exact h d h1
  · rw [List.eq_of_mem_replicate h2]; norm_num

theorem dropWhile_replicate_append (p : Nat → Bool) (a : Nat) (ha : p a = true)
    (k : Nat) (m : List Nat) :
    (List.replicate k a ++ m).dropWhile p = m.dropWhile p := by
  induction k with
  | zero => rfl
  | succ j ih =>
      rw [List.replicate_succ, List.cons_append, List.dropWhile_cons_of_pos ha, ih]

/-- Trailing zeros appended on the right are invisible to `dropTrailingZeros`. -/
theorem dropTrailingZeros_append_replicate (l : List Nat) (k : Nat) :
    dropTrailingZeros (l ++ List.replicate k 0) = dropTrailingZeros l := by
  unfold dropTrailingZeros
  rw [List.reverse_append, List.reverse_replicate,
    dropWhile_replicate_append _ 0 (by simp) k l.reverse]

theorem dropTrailingZeros_length_le (l : List Nat) :
    (dropTrailingZeros l).length ≤ l.length := by
  unfold dropTrailingZeros
  rw [List.length_reverse]
  calc (l.reverse.dropWhile (fun x => decide (x = 0))).length
      ≤ l.reverse.length := (List.dropWhile_sublist _).length_le
    _ = l.length := List.length_reverse l

/-- Re-padding the canonical fractional digits reproduces the padded block. -/
theorem padSlice9_dropTrailingZeros (b : List Nat) (hlen : b.length ≤ 9) :
    padSlice9 (dropTrailingZeros b) = padSlice9 b := by
  have h1 : (dropTrailingZeros b).length ≤ 9 :=
    le_trans (dropTrailingZeros_length_le b) hlen
  rw [padSlice9_eq _ h1, padSlice9_eq _ hlen]
  have h2 := dropTrailingZeros_padBack b
  calc dropTrailingZeros b ++ List.replicate (9 - (dropTrailingZeros b).length) 0
      = dropTrailingZeros b
        ++ (List.replicate (b.length - (dropTrailingZeros b).length) 0
            ++ List.replicate (9 - b.length) 0) := by
        rw [← List.replicate_add]
        have h5 : 9 - (dropTrailingZeros b).length
            = (b.length - (dropTrailingZeros b).length) + (9 - b.length) := by
          have := dropTrailingZeros_length_le b
          omega
        rw [h5]
    _ = (dropTrailingZeros b
          ++ List.replicate (b.length - (dropTrailingZeros b).length) 0)
        ++ List.replicate (9 - b.length) 0 := by rw [List.append_assoc]
    _ = b ++ List.replicate (9 - b.length) 0 := by rw [h2]

theorem dropWhile_head?_not (p : Nat → Bool) (m : List Nat) (x : Nat)
    (hx : (m.dropWhile p).head? = some x) : p x = false := by
  induction m with
  | nil => simp [List.dropWhile] at hx
  | cons a as ih =>
      by_cases hpa : p a = true
      · rw [List.dropWhile_cons_of_pos hpa] at hx
        exact ih hx
      · rw [List.dropWhile_cons_of_neg hpa] at hx
        simp only [List.head?_cons, Option.some.injEq] at hx
        subst hx
        simpa using hpa

/-- No trailing zero survives `dropTrailingZeros`. -/
theorem dropTrailingZeros_getLast?_ne_zero (l : List Nat) :
    dropTrailingZeros l = [] ∨ (dropTrailingZeros l).getLast? ≠ some 0 := by
  right
  unfold dropTrailingZeros
  rw [List.getLast?_reverse]
  intro hcon
  have := dropWhile_head?_not (fun x => decide (x = 0)) l.reverse 0 hcon
  simp at this

/-- C9 (amended) — round-tripping a decimal string with at most 9 fractional
digits through `tonToNanoBig` and `nanoToTonStr` preserves the numeric value
exactly, and returns the input string with its trailing fractional zeros
removed; in particular the round trip is the identity exactly on strings
whose fractional part has no trailing zeros. -/
theorem c9_decimal_roundTrip (a : Nat) (b : List Nat)
    (hd : DigitsOk b) (hlen : b.length ≤ 9) :
    nanoToTonStr (tonToNanoBig a b) = (a, dropTrailingZeros b) ∧
    tonToNanoBig a (dropTrailingZeros b) = tonToNanoBig a b := by
  have hvlt : digitsVal (padSlice9 b) < 1000000000 := by
    have := digitsVal_lt (padSlice9 b) (digitsOk_padSlice9 b hd)
    rw [padSlice9_length b hlen] at this
    norm_num at this
    exact this
  have hdiv : tonToNanoBig a b / 1000000000 = a := by
    unfold tonToNanoBig
    omega
  have hmod : tonToNanoBig a b % 1000000000 = digitsVal (padSlice9 b) := by
    unfold tonToNanoBig
    omega
  have hfst : nanoToTonStr (tonToNanoBig a b) = (a, dropTrailingZeros b) := by
    unfold nanoToTonStr
    rw [hdiv, hmod,
      pad9Digits_digitsVal (padSlice9 b) (digitsOk_padSlice9 b hd)
        (padSlice9_length b hlen),
      padSlice9_eq b hlen, dropTrailingZeros_append_replicate]
  refine ⟨hfst, ?_⟩
  unfold tonToNanoBig
  rw [padSlice9_dropTrailingZeros b hlen]

/-- C9 counterexample — the decimal string `"1.10"` (two fractional digits,
well within 9) does not round-trip to itself: `nanoToTonStr (tonToNanoBig
"1.10")` is the string `"1.1"`, refuting the claim that conversion to the
smallest-unit integer and back yields the same decimal string. -/
theorem c9_roundTrip_not_identity :
    nanoToTonStr (tonToNanoBig 1 [1, 0]) = (1, [1]) ∧
    (1, [1]) ≠ ((1 : Nat), [1, 0]) := by
  constructor
  · rfl
  · decide

/-- Witness for `c9_decimal_roundTrip` at the spec's round-trip example shape:
the canonical string `"2.5"` round-trips to itself. -/
theorem c9_decimal_roundTrip_witness :
    nanoToTonStr (tonToNanoBig 2 [5]) = (2, dropTrailingZeros [5]) ∧
    tonToNanoBig 2 (dropTrailingZeros [5]) = tonToNanoBig 2 [5] :=
  c9_decimal_roundTrip 2 [5] (by decide) (by decide)

/-- C10 — converting any non-negative nanoton amount to a decimal TON string
and parsing it back yields exactly the original amount, and the produced
string is canonical: its fractional digit list never ends in a zero (an empty
list meaning the string has no decimal point, mirroring the source's
`frac ? '.' + frac : ''`).  Hence `nanoToTonStr` is injective: every ledger
amount has a unique string representation. -/
theorem c10_nano_string_roundTrip (n : Nat) :
    tonToNanoBig (nanoToTonStr n).1 (nanoToTonStr n).2 = n ∧
    ((nanoToTonStr n).2 = [] ∨ (nanoToTonStr n).2.getLast? ≠ some 0) := by
  constructor
  · show tonToNanoBig (n / 1000000000)
        (dropTrailingZeros (pad9Digits (n % 1000000000))) = n
    unfold tonToNanoBig
    have h9 : (pad9Digits (n % 1000000000)).length = 9 :=
      pad9Digits_length _
    have hle : (dropTrailingZeros (pad9Digits (n % 1000000000))).length ≤ 9 :=
      h9 ▸ dropTrailingZeros_length_le _
    rw [padSlice9_eq _ hle]
    have := dropTrailingZeros_padBack (pad9Digits (n % 1000000000))
    rw [h9] at this
    rw [this, digitsVal_pad9Digits _ (Nat.mod_lt _ (by norm_num))]
    omega
  · exact dropTrailingZeros_getLast?_ne_zero _

/-! ## IEEE-754 binary64 model of JavaScript `Number` arithmetic (C8)

withdraw_routes.js parses amounts with `Number(...)` and compares them as
doubles (`amountTon < MIN_WITHDRAW_TON`, `amountTon <= AUTO_PAYOUT_MAX_TON`),
and the first approve variant computes the gateway amount as
`Number(BigInt(w.amount_nano)) / 1e9` — a double division.  A positive
binary64 value is represented exactly as a pair `(m, k)` with value
`m · 2^k`; `Number` on a decimal literal and IEEE division both produce the
representable value nearest to the exact rational (ties to even).
Sub-normals and overflow are irrelevant at the magnitudes involved, so the
53-bit round-to-nearest-even model below is exact for them. -/

/-- Binary length of `n` (fuel-based so the kernel can evaluate it; 128 bits
of fuel covers every quantity in this development). -/
def bitsF : Nat → Nat → Nat
  | 0, _ => 0
  | f + 1, n => if n = 0 then 0 else 1 + bitsF f (n / 2)

/-- `2^e ≤ n / d`, for a possibly negative exponent `e`. -/
def geTwoPow (n d : Nat) (e : Int) : Bool :=
  if 0 ≤ e then decide (d * 2 ^ e.toNat ≤ n) else decide (d ≤ n * 2 ^ (-e).toNat)

/-- Floor base-2 exponent of the positive rational `n / d`: the unique `e`
with `2^e ≤ n/d < 2^(e+1)`. -/
def expOfPair (n d : Nat) : Int :=
  let e0 : Int := (bitsF 128 n : Int) - (bitsF 128 d : Int)
  if geTwoPow n d e0 then e0 else e0 - 1

/-- Integer rounding of `num / den` to nearest, ties to even. -/
def roundHalfEven (num den : Nat) : Nat :=
  let q := num / den
  let r := num % den
  if den < 2 * r then q + 1
  else if 2 * r < den then q
  else if q % 2 = 0 then q else q + 1

/-- Round the exact rational `n / d` (with `d ≠ 0`) to the nearest IEEE-754
binary64 value, ties to even, returned as `(m, k)` with exact value
`m · 2^k` and `2^52 ≤ m < 2^53` (for `n ≠ 0`).  This is what JavaScript's
`Number(...)` yields on a decimal literal and what a correctly rounded
IEEE division yields on the exact quotient. -/
def roundDouble (n d : Nat) : Nat × Int :=
  if n = 0 then (0, 0) else
  let e := expOfPair n d
  let k := e - 52
  let m := if 0 ≤ k then roundHalfEven n (d * 2 ^ k.toNat)
           else roundHalfEven (n * 2 ^ (-k).toNat) d
  (m, k)

/-- `x < y` on exactly represented binary64 values. -/
def doubleLT (x y : Nat × Int) : Bool :=
  if x.2 ≤ y.2 then decide (x.1 < y.1 * 2 ^ (y.2 - x.2).toNat)
  else decide (x.1 * 2 ^ (x.2 - y.2).toNat < y.1)

/-- `x ≤ y` on exactly represented binary64 values. -/
def doubleLE (x y : Nat × Int) : Bool :=
  if x.2 ≤ y.2 then decide (x.1 ≤ y.1 * 2 ^ (y.2 - x.2).toNat)
  else decide (x.1 * 2 ^ (x.2 - y.2).toNat ≤ y.1)

/-- Does the binary64 value `x` equal the exact rational `n / d`? -/
def doubleEqRat (x : Nat × Int) (n d : Nat) : Bool :=
  if 0 ≤ x.2 then decide (x.1 * 2 ^ x.2.toNat * d = n)
  else decide (x.1 * d = n * 2 ^ (-x.2).toNat)

/-- Exact numerator of the decimal string `(a, b)`. -/
def decNum (a : Nat) (b : List Nat) : Nat := a * 10 ^ b.length + digitsVal b

/-- Exact denominator of the decimal string `(a, b)`. -/
def decDen (b : List Nat) : Nat := 10 ^ b.length

/-- Outcome of the `/api/withdraw/request` amount validation and routing. -/
inductive ReqDecision
  | badAmount
  | belowMin
  | statusProcessing
  | statusPending
deriving DecidableEq, Repr

/-- The amount validation and auto-vs-manual routing of
`POST /api/withdraw/request` (withdraw_routes.js 69-93) as the code performs
it: the submitted decimal is parsed by `Number(...)` into a binary64 double
and compared as a double against `MIN_WITHDRAW_TON = Number('0.1')` and
`AUTO_PAYOUT_MAX_TON = Number('3')` (the first variant's env defaults). -/
def requestDecisionCode (a : Nat) (b : List Nat) : ReqDecision :=
  let amt := roundDouble (decNum a b) (decDen b)
  let minW := roundDouble 1 10
  let ceil := roundDouble 3 1
  if amt.1 = 0 then .badAmount
  else if doubleLT amt minW then .belowMin
  else if doubleLE amt ceil then .statusProcessing
  else .statusPending

/-- Following the spec's words ("amounts are compared in exact integer
smallest-unit arithmetic, never floating point"): the same validation and
routing computed on the exact rational value of the submitted decimal
string, against the exact thresholds 0.1 TON and 3 TON. -/
def requestDecisionExactSpec (a : Nat) (b : List Nat) : ReqDecision :=
  if decNum a b = 0 then .badAmount
  else if decNum a b * 10 < decDen b then .belowMin
  else if decNum a b ≤ 3 * decDen b then .statusProcessing
  else .statusPending

/-- `Number(BigInt(w.amount_nano)) / 1e9` from the first approve variant
(withdraw_routes.js 191-193): the nanoton integer is converted to a double
(exact below `2^53`) and divided by `1e9` (exact), IEEE division returning
the representable value nearest to the exact quotient `n / 10^9`. -/
def approveAmountTonV1 (n : Nat) : Nat × Int :=
  roundDouble n 1000000000

/-- C8 — the withdrawal flow does NOT compute in exact integer arithmetic.
Two concrete evaluations of the code's float arithmetic against the exact
arbitrary-precision computation: (1) the amount the first approve variant
passes to the payout gateway for the stored integral amount
`amount_nano = 100000001` is a double that differs from the exact value
`100000001 / 10^9` TON; (2) the request route's double comparison routes the
submitted decimal `3.0000000000000000001` to auto-payout (`Number` rounds it
to exactly `3`), while the exact comparison `amount ≤ 3` is false and routes
it to `pending`. -/
theorem c8_float_arithmetic_diverges_from_exact :
    doubleEqRat (approveAmountTonV1 100000001) 100000001 1000000000 = false ∧
    requestDecisionCode 3 [0, 0, 0, 0, 0, 0, 0, 0, 0, 0, 0, 0, 0, 0, 0, 0, 0, 0, 1]
      = ReqDecision.statusProcessing ∧
    requestDecisionExactSpec 3 [0, 0, 0, 0, 0, 0, 0, 0, 0, 0, 0, 0, 0, 0, 0, 0, 0, 0, 1]
      = ReqDecision.statusPending := by
  refine ⟨by decide, by decide, by decide⟩

/-! ## The ledger / withdrawal / deposit store (pg_schema.sql, db.js)

State is the visible content of the `ledger`, `withdrawals` and `deposits`
tables, plus a counter of payout-gateway (`sendTon`) invocations.  A SQL
`INSERT` is modelled as consing the new row; `SELECT ... WHERE id=$1` as
`List.find?`; `UPDATE ... WHERE id=$1` as a map over the rows.  Amounts are
integer nanotons (`Int`, matching the BIGINT column and JavaScript
`BigInt`). -/

/-- `withdrawals.status` (spec §4.3; the string statuses of the source). -/
inductive WStatus
  | pending
  | processing
  | paid
  | failed
  | rejected
deriving DecidableEq

/-- `deposits.status`: `'pending' | 'confirmed'`. -/
inductive DStatus
  | dpending
  | confirmed
deriving DecidableEq

/-- A `ledger` row: `(address, delta_nano, reason, ref)`. -/
structure Entry where
  addr : String
  delta : Int
  reason : String
  ref : Option String
deriving DecidableEq

/-- A `withdrawals` row: `(id, address, to_address, amount_nano, status)`. -/
structure WRow where
  id : String
  addr : String
  toAddr : String
  amount : Int
  status : WStatus
deriving DecidableEq

/-- A `deposits` row: `(id, address, amount_nano, status)`. -/
structure DRow where
  id : String
  addr : String
  amount : Int
  status : DStatus
deriving DecidableEq

/-- The shared store, plus the count of `sendTon` invocations made so far. -/
structure St where
  ledger : List Entry
  wds : List WRow
  deps : List DRow
  gatewayCalls : Nat
deriving DecidableEq

/-- The empty store. -/
def st0 : St := { ledger := [], wds := [], deps := [], gatewayCalls := 0 }

/-- `SELECT COALESCE(SUM(delta_nano),0) FROM ledger WHERE address=$1`
(db.js `getBalanceNano`, and inline in the hold/spend transactions). -/
def balanceOf (s : St) (a : String) : Int :=
  s.ledger.foldl (fun acc e => if e.addr = a then acc + e.delta else acc) 0

/-- `addLedger` (db.js 231-238): unconditional
`INSERT INTO ledger(address, delta_nano, reason, ref, ...)` — note: no
check for an existing entry with the same reference. -/
def addLedger (s : St) (a : String) (delta : Int) (reason : String)
    (ref : Option String) : St :=
  { s with ledger := { addr := a, delta := delta, reason := reason, ref := ref } :: s.ledger }

/-- `SELECT * FROM withdrawals WHERE id=$1`. -/
def findW (s : St) (wid : String) : Option WRow :=
  s.wds.find? (fun w => w.id = wid)

/-- `UPDATE withdrawals SET status=$s WHERE id=$1`. -/
def setWStatus (s : St) (wid : String) (st : WStatus) : St :=
  { s with wds := s.wds.map (fun w => if w.id = wid then { w with status := st } else w) }

/-- `SELECT ... FROM deposits WHERE id=$1`. -/
def findD (s : St) (did : String) : Option DRow :=
  s.deps.find? (fun d => d.id = did)

/-- `UPDATE deposits SET status='confirmed' WHERE id=$1`. -/
def setDConfirmed (s : St) (did : String) : St :=
  { s with deps := s.deps.map (fun d => if d.id = did then { d with status := .confirmed } else d) }

/-- Number of ledger rows with the given reason and reference. -/
def countReasonRef (s : St) (reason wid : String) : Nat :=
  (s.ledger.filter (fun e => e.reason = reason && e.ref = some wid)).length

/-- One `sendTon` invocation (payout.js); only the fact that the gateway
was called is observable to the store. -/
def callGateway (s : St) : St :=
  { s with gatewayCalls := s.gatewayCalls + 1 }

/-! ### `POST /api/withdraw/request` — the hold transaction
(withdraw_routes.js 81-114, identical in every variant) -/

/-- The atomic hold transaction: read the balance, abort if insufficient,
insert the withdrawal row (status `processing` when the amount is within the
auto-payout ceiling, else `pending`) and the `withdraw_hold` ledger entry.
The fresh-id guard models the table's PRIMARY KEY on `id` (a duplicate
insert aborts the transaction). -/
def withdrawRequestTxn (s : St) (a toA wid : String) (amount : Int)
    (auto : Bool) : Except String St :=
  if (findW s wid).isSome then .error "duplicate id"
  else if balanceOf s a < amount then .error "Недостаточно средств"
  else
    let status := if auto then WStatus.processing else WStatus.pending
    let s1 : St := { s with wds := ⟨wid, a, toA, amount, status⟩ :: s.wds }
    .ok (addLedger s1 a (-amount) "withdraw_hold" (some wid))

/-- Auto-payout success continuation (withdraw_routes.js 129-133):
`UPDATE withdrawals SET status='paid' WHERE id=$1` — unconditional. -/
def autoFinishOk (s : St) (wid : String) : St :=
  setWStatus s wid .paid

/-- Auto-payout failure continuation (withdraw_routes.js 134-144): release
the hold and set status `failed`.  Address and amount come from the request
handler's closure, not from a re-read of the row. -/
def autoFinishFail (s : St) (a : String) (amount : Int) (wid : String) : St :=
  setWStatus (addLedger s a amount "withdraw_release" (some wid)) wid .failed

/-! ### `POST /api/admin/withdraw/approve` -/

/-- Transaction #1 of the hardened approve (withdraw_routes.js 417-446):
`SELECT ... FOR UPDATE`, abort with `not found` / `bad status` unless the
status is still `pending`, else move to `processing` and commit.  The
returned row is the pre-update snapshot the handler keeps in `w`. -/
def approveLockTxn (s : St) (wid : String) : Except String (WRow × St) :=
  match findW s wid with
  | none => .error "not found"
  | some w =>
      if w.status ≠ WStatus.pending then .error "bad status"
      else .ok (w, setWStatus s wid .processing)

/-- Transaction #2 of the hardened approve (withdraw_routes.js 456-460):
`UPDATE withdrawals SET status='paid' WHERE id=$3` with the route's id. -/
def markPaid (s : St) (wid : String) : St :=
  setWStatus s wid .paid

/-- The hardened approve's catch path for a payment failure
(withdraw_routes.js 470-486): `addLedger(w.address, amount,
'withdraw_release', w.id)` then set status `failed` on `w.id`. -/
def releaseAndFail (s : St) (w : WRow) : St :=
  setWStatus (addLedger s w.addr w.amount "withdraw_release" (some w.id)) w.id .failed

/-- Result of an approve call as seen by the admin. -/
inductive ApproveOutcome
  | approvedPaid
  | gatewayFailed
  | errBadStatus
  | errNotFound
deriving DecidableEq

/-- One full, uninterleaved run of the hardened approve
(withdraw_routes.js 402-489, payouts enabled) with gateway outcome `g`:
transaction #1, then `sendTon`, then either transaction #2 (`paid`) or the
catch path (release + `failed`).  The catch path is skipped for
`bad status` / `not found`, which leave the store untouched. -/
def approveHardened (s : St) (wid : String) (g : Bool) : ApproveOutcome × St :=
  match approveLockTxn s wid with
  | .error e => (if e = "not found" then .errNotFound else .errBadStatus, s)
  | .ok (w, s1) =>
      let s2 := callGateway s1
      if g then (.approvedPaid, markPaid s2 wid)
      else (.gatewayFailed, releaseAndFail s2 w)

/-- The read-and-check of the first approve variant
(withdraw_routes.js 180-184): a plain `SELECT` with no row lock and no
status update, accepting status `pending` or `processing`. -/
def approveV1Read (s : St) (wid : String) : Except String WRow :=
  match findW s wid with
  | none => .error "not found"
  | some w =>
      if w.status ≠ WStatus.pending ∧ w.status ≠ WStatus.processing then
        .error "bad status"
      else .ok w

/-- One full, uninterleaved run of the first approve variant
(withdraw_routes.js 173-204, payouts enabled): read and check, `sendTon`,
set `paid`.  A gateway failure propagates to the outer catch, which releases
nothing and changes no status. -/
def approveV1 (s : St) (wid : String) (g : Bool) : ApproveOutcome × St :=
  match approveV1Read s wid with
  | .error e => (if e = "not found" then .errNotFound else .errBadStatus, s)
  | .ok _ =>
      let s2 := callGateway s
      if g then (.approvedPaid, markPaid s2 wid)
      else (.gatewayFailed, s2)

/-! ### `POST /api/admin/withdraw/reject` -/

/-- Result of a reject call. -/
inductive RejectOutcome
  | rejectedOk
  | errBadStatus
  | errNotFound
deriving DecidableEq

/-- Hardened reject (withdraw_routes.js 492-516): `pending` only; release
the hold via `addLedger(w.address, amount, 'withdraw_reject_release', id)`
and set status `rejected`. -/
def rejectHardened (s : St) (wid : String) : RejectOutcome × St :=
  match findW s wid with
  | none => (.errNotFound, s)
  | some w =>
      if w.status = WStatus.pending then
        (.rejectedOk,
          setWStatus (addLedger s w.addr w.amount "withdraw_reject_release" (some wid))
            wid .rejected)
      else (.errBadStatus, s)

/-- First/third reject variants (withdraw_routes.js 207-232, unnamed
part_001 174-197): same body but accepting `pending` or `processing`. -/
def rejectV1 (s : St) (wid : String) : RejectOutcome × St :=
  match findW s wid with
  | none => (.errNotFound, s)
  | some w =>
      if w.status = WStatus.pending ∨ w.status = WStatus.processing then
        (.rejectedOk,
          setWStatus (addLedger s w.addr w.amount "withdraw_reject_release" (some wid))
            wid .rejected)
      else (.errBadStatus, s)

/-! ### `POST /api/spend`, `POST /api/refund` (server.js 548-603) -/

/-- The spend transaction: balance check and negative append in one
transaction; the reason string comes from the request body. -/
def spendTxn (s : St) (a : String) (amount : Int) (reason : String) :
    Except String St :=
  if balanceOf s a < amount then .error "Недостаточно средств"
  else .ok (addLedger s a (-amount) reason none)

/-- The refund/credit append (server.js 587-603); the `amtNum <= 0` check
precedes the append.  Bonus, referral and game-reward credits follow the
same positive-append shape. -/
def refundOp (s : St) (a : String) (amount : Int) (reason : String)
    (ref : Option String) : Except String St :=
  if amount ≤ 0 then .error "bad amount"
  else .ok (addLedger s a amount reason ref)

/-! ### Deposits (server.js 379-416, poller.js 49-111, unnamed part_005) -/

/-- `POST /api/deposit/create`: insert a `pending` deposit row (fresh-id
guard models the PRIMARY KEY). -/
def depositCreate (s : St) (did a : String) (amount : Int) : Except String St :=
  if (findD s did).isSome then .error "duplicate id"
  else .ok { s with deps := ⟨did, a, amount, .dpending⟩ :: s.deps }

/-- The poller's per-deposit confirmation transaction (poller.js 72-99):
`SELECT status ... FOR UPDATE`, rollback and skip unless still `pending`,
else mark confirmed and append the `deposit` ledger credit (reference =
deposit id). -/
def depositConfirmTxn (s : St) (did : String) : St :=
  match findD s did with
  | none => s
  | some d =>
      if d.status ≠ DStatus.dpending then s
      else addLedger (setDConfirmed s did) d.addr d.amount "deposit" (some did)

/-- `alreadyLedgered` (unnamed part_005, lines 94-97): is there any ledger
row whose reference is this deposit id? -/
def alreadyLedgered (s : St) (ref : String) : Bool :=
  s.ledger.any (fun e => e.ref = some ref)

/-- The sqlite poller's per-deposit confirmation (unnamed part_005,
lines 103-131): only `pending` deposits are selected; if a ledger entry
already references the deposit the status is fixed up without a second
credit, else the deposit is confirmed and credited once. -/
def depositConfirmSqlite (s : St) (did : String) : St :=
  match findD s did with
  | none => s
  | some d =>
      if d.status ≠ DStatus.dpending then s
      else if alreadyLedgered s did then setDConfirmed s did
      else addLedger (setDConfirmed s did) d.addr d.amount "deposit" (some did)

/-! ### Store lemmas -/

theorem balanceOf_foldl_acc (l : List Entry) (a : String) (init : Int) :
    l.foldl (fun acc e => if e.addr = a then acc + e.delta else acc) init
      = init + l.foldl (fun acc e => if e.addr = a then acc + e.delta else acc) 0 := by
  induction l generalizing init with
  | nil => simp
  | cons e t ih =>
      simp only [List.foldl_cons]
      by_cases he : e.addr = a
      · rw [if_pos he, if_pos he, ih (init + e.delta), ih (0 + e.delta)]
        ring
      · rw [if_neg he, if_neg he, ih init]

/-- The balance is the sum of the address's ledger deltas (the SQL
`SUM ... WHERE address=$1` unfolded). -/
theorem balanceOf_eq_sum (s : St) (a : String) :
    balanceOf s a
      = (((s.ledger.filter (fun e => e.addr = a)).map (fun e => e.delta)).sum) := by
  unfold balanceOf
  induction s.ledger with
  | nil => rfl
  | cons e t ih =>
      simp only [List.foldl_cons, List.filter_cons]
      by_cases he : e.addr = a
      · rw [if_pos he, balanceOf_foldl_acc, ih]
        simp [he]
      · rw [if_neg he, ih]
        simp [he]

theorem balanceOf_addLedger (s : St) (a : String) (δ : Int) (r : String)
    (ref : Option String) (x : String) :
    balanceOf (addLedger s a δ r ref) x
      = if a = x then balanceOf s x + δ else balanceOf s x := by
  unfold addLedger
  rw [balanceOf_eq_sum, balanceOf_eq_sum]
  simp only [List.filter_cons]
  by_cases he : a = x
  · simp [he, add_comm]
  · simp [he]

theorem balanceOf_setWStatus (s : St) (wid : String) (st : WStatus) (x : String) :
    balanceOf (setWStatus s wid st) x = balanceOf s x := rfl

theorem balanceOf_setDConfirmed (s : St) (did : String) (x : String) :
    balanceOf (setDConfirmed s did) x = balanceOf s x := rfl

theorem balanceOf_callGateway (s : St) (x : String) :
    balanceOf (callGateway s) x = balanceOf s x := rfl

theorem countReasonRef_addLedger (s : St) (a : String) (δ : Int)
    (r : String) (ref : Option String) (rsn wid : String) :
    countReasonRef (addLedger s a δ r ref) rsn wid
      = countReasonRef s rsn wid
        + (if r = rsn ∧ ref = some wid then 1 else 0) := by
  unfold countReasonRef addLedger
  simp only [List.filter_cons]
  by_cases hc : r = rsn ∧ ref = some wid
  · simp [hc.1, hc.2]
  · rw [if_neg hc]
    have : ((decide (r = rsn)) && (decide (ref = some wid))) = false := by
      rcases not_and_or.mp hc with h | h <;> simp [h]
    simp [this]

theorem countReasonRef_setWStatus (s : St) (wid' : String) (st : WStatus)
    (rsn wid : String) :
    countReasonRef (setWStatus s wid' st) rsn wid = countReasonRef s rsn wid := rfl

theorem countReasonRef_setDConfirmed (s : St) (did : String) (rsn wid : String) :
    countReasonRef (setDConfirmed s did) rsn wid = countReasonRef s rsn wid := rfl

theorem countReasonRef_callGateway (s : St) (rsn wid : String) :
    countReasonRef (callGateway s) rsn wid = countReasonRef s rsn wid := rfl

theorem findW_addLedger (s : St) (a : String) (δ : Int) (r : String)
    (ref : Option String) (wid : String) :
    findW (addLedger s a δ r ref) wid = findW s wid := rfl

theorem findW_callGateway (s : St) (wid : String) :
    findW (callGateway s) wid = findW s wid := rfl

theorem findW_setDConfirmed (s : St) (did wid : String) :
    findW (setDConfirmed s did) wid = findW s wid := rfl

theorem findW_setWStatus_self (s : St) (wid : String) (st : WStatus) :
    findW (setWStatus s wid st) wid
      = (findW s wid).map (fun w => { w with status := st }) := by
  unfold findW setWStatus
  induction s.wds with
  | nil => rfl
  | cons w t ih =>
      by_cases hw : w.id = wid
      · rw [List.map_cons, if_pos hw]
        rw [List.find?_cons_of_pos _ (by simpa using hw),
          List.find?_cons_of_pos _ (by simpa using hw)]
        simp
      · rw [List.map_cons, if_neg hw]
        rw [List.find?_cons_of_neg _ (by simpa using hw),
          List.find?_cons_of_neg _ (by simpa using hw)]
        exact ih

theorem findW_setWStatus_ne (s : St) (wid' : String) (st : WStatus)
    (wid : String) (hne : wid' ≠ wid) :
    findW (setWStatus s wid' st) wid = findW s wid := by
  unfold findW setWStatus
  induction s.wds with
  | nil => rfl
  | cons w t ih =>
      by_cases hw : w.id = wid'
      · have hni : ¬ (w.id = wid) := by rw [hw]; exact hne
        rw [List.map_cons, if_pos hw]
        rw [List.find?_cons_of_neg _ (by simpa using hni),
          List.find?_cons_of_neg _ (by simpa using hni)]
        exact ih
      · rw [List.map_cons, if_neg hw]
        by_cases hw2 : w.id = wid
        · rw [List.find?_cons_of_pos _ (by simpa using hw2),
            List.find?_cons_of_pos _ (by simpa using hw2)]
        · rw [List.find?_cons_of_neg _ (by simpa using hw2),
            List.find?_cons_of_neg _ (by simpa using hw2)]
          exact ih

theorem findD_addLedger (s : St) (a : String) (δ : Int) (r : String)
    (ref : Option String) (did : String) :
    findD (addLedger s a δ r ref) did = findD s did := rfl

theorem findD_setWStatus (s : St) (wid : String) (st : WStatus) (did : String) :
    findD (setWStatus s wid st) did = findD s did := rfl

theorem findD_setDConfirmed_self (s : St) (did : String) :
    findD (setDConfirmed s did) did
      = (findD s did).map (fun d => { d with status := .confirmed }) := by
  unfold findD setDConfirmed
  induction s.deps with
  | nil => rfl
  | cons d t ih =>
      by_cases hd : d.id = did
      · rw [List.map_cons, if_pos hd]
        rw [List.find?_cons_of_pos _ (by simpa using hd),
          List.find?_cons_of_pos _ (by simpa using hd)]
        simp
      · rw [List.map_cons, if_neg hd]
        rw [List.find?_cons_of_neg _ (by simpa using hd),
          List.find?_cons_of_neg _ (by simpa using hd)]
        exact ih

/-! ## C5 — approve on a terminal withdrawal -/

/-- C5 — for a withdrawal whose status is `paid`, `failed` or `rejected`,
an approve call fails with the `bad status` error and returns the store
completely unchanged — no ledger entry appended (funds are not
re-released), no `sendTon` invocation, no row modified — in both the
hardened approve variant and the first (no-lock) variant. -/
theorem c5_approve_terminal_rejected_unchanged (s : St) (wid : String)
    (w : WRow) (g : Bool) (hw : findW s wid = some w)
    (hterm : w.status = .paid ∨ w.status = .failed ∨ w.status = .rejected) :
    approveHardened s wid g = (.errBadStatus, s) ∧
    approveV1 s wid g = (.errBadStatus, s) := by
  have hnp : w.status ≠ WStatus.pending := by
    rcases hterm with h | h | h <;> simp [h]
  have hnpr : w.status ≠ WStatus.processing := by
    rcases hterm with h | h | h <;> simp [h]
  have hlock : approveLockTxn s wid = Except.error "bad status" := by
    unfold approveLockTxn
    rw [hw]
    exact if_pos hnp
  have hread : approveV1Read s wid = Except.error "bad status" := by
    unfold approveV1Read
    rw [hw]
    exact if_pos ⟨hnp, hnpr⟩
  constructor
  · unfold approveHardened
    simp only [hlock]
    rw [if_neg (by decide : ¬ ("bad status" : String) = "not found")]
  · unfold approveV1
    simp only [hread]
    rw [if_neg (by decide : ¬ ("bad status" : String) = "not found")]

/-- Witness for `c5_approve_terminal_rejected_unchanged` on a concrete
already-paid withdrawal. -/
theorem c5_approve_terminal_witness :
    approveHardened ⟨[], [⟨"w1", "a", "t", 3, .paid⟩], [], 0⟩ "w1" true
      = (.errBadStatus, ⟨[], [⟨"w1", "a", "t", 3, .paid⟩], [], 0⟩) ∧
    approveV1 ⟨[], [⟨"w1", "a", "t", 3, .paid⟩], [], 0⟩ "w1" true
      = (.errBadStatus, ⟨[], [⟨"w1", "a", "t", 3, .paid⟩], [], 0⟩) :=
  c5_approve_terminal_rejected_unchanged _ "w1" ⟨"w1", "a", "t", 3, .paid⟩ true
    (by decide) (Or.inl rfl)

/-! ## C6 — reject status gating -/

/-- C6 (amended) — the hardened reject variant succeeds exactly on status
`pending`; the first/third variants also succeed on `processing`.  On
success both append exactly one release entry — with reason
`withdraw_reject_release` — for the hold reference and set the status to
`rejected`; on any other status they fail with `bad status` and change no
state. -/
theorem c6_reject_status_gate (s : St) (wid : String) (w : WRow)
    (hw : findW s wid = some w) :
    (w.status = .pending →
      rejectHardened s wid
        = (.rejectedOk,
            setWStatus
              (addLedger s w.addr w.amount "withdraw_reject_release" (some wid))
              wid .rejected) ∧
      countReasonRef (rejectHardened s wid).2 "withdraw_reject_release" wid
        = countReasonRef s "withdraw_reject_release" wid + 1) ∧
    (w.status ≠ .pending → rejectHardened s wid = (.errBadStatus, s)) ∧
    (w.status = .pending ∨ w.status = .processing →
      rejectV1 s wid
        = (.rejectedOk,
            setWStatus
              (addLedger s w.addr w.amount "withdraw_reject_release" (some wid))
              wid .rejected)) ∧
    ((w.status ≠ .pending ∧ w.status ≠ .processing) →
      rejectV1 s wid = (.errBadStatus, s)) := by
  refine ⟨?_, ?_, ?_, ?_⟩
  · intro hp
    have heq : rejectHardened s wid
        = (.rejectedOk,
            setWStatus
              (addLedger s w.addr w.amount "withdraw_reject_release" (some wid))
              wid .rejected) := by
      unfold rejectHardened
      rw [hw]
      exact if_pos hp
    refine ⟨heq, ?_⟩
    rw [heq]
    simp only [countReasonRef_setWStatus, countReasonRef_addLedger]
    simp
  · intro hp
    unfold rejectHardened
    rw [hw]
    exact if_neg hp
  · intro hp
    unfold rejectV1
    rw [hw]
    exact if_pos hp
  · intro hp
    unfold rejectV1
    rw [hw]
    exact if_neg (by simpa [not_or] using hp)

/-- Witness for `c6_reject_status_gate` on a concrete pending withdrawal. -/
theorem c6_reject_status_gate_witness :
    ((⟨"w1", "a", "t", 3, .pending⟩ : WRow).status = .pending →
      rejectHardened ⟨[⟨"a", -3, "withdraw_hold", some "w1"⟩],
          [⟨"w1", "a", "t", 3, .pending⟩], [], 0⟩ "w1"
        = (.rejectedOk,
            setWStatus
              (addLedger ⟨[⟨"a", -3, "withdraw_hold", some "w1"⟩],
                  [⟨"w1", "a", "t", 3, .pending⟩], [], 0⟩
                "a" 3 "withdraw_reject_release" (some "w1"))
              "w1" .rejected) ∧
      countReasonRef (rejectHardened ⟨[⟨"a", -3, "withdraw_hold", some "w1"⟩],
          [⟨"w1", "a", "t", 3, .pending⟩], [], 0⟩ "w1").2
          "withdraw_reject_release" "w1"
        = countReasonRef ⟨[⟨"a", -3, "withdraw_hold", some "w1"⟩],
            [⟨"w1", "a", "t", 3, .pending⟩], [], 0⟩
            "withdraw_reject_release" "w1" + 1) ∧
    ((⟨"w1", "a", "t", 3, .pending⟩ : WRow).status ≠ .pending →
      rejectHardened ⟨[⟨"a", -3, "withdraw_hold", some "w1"⟩],
          [⟨"w1", "a", "t", 3, .pending⟩], [], 0⟩ "w1"
        = (.errBadStatus, ⟨[⟨"a", -3, "withdraw_hold", some "w1"⟩],
            [⟨"w1", "a", "t", 3, .pending⟩], [], 0⟩)) ∧
    ((⟨"w1", "a", "t", 3, .pending⟩ : WRow).status = .pending ∨
        (⟨"w1", "a", "t", 3, .pending⟩ : WRow).status = .processing →
      rejectV1 ⟨[⟨"a", -3, "withdraw_hold", some "w1"⟩],
          [⟨"w1", "a", "t", 3, .pending⟩], [], 0⟩ "w1"
        = (.rejectedOk,
            setWStatus
              (addLedger ⟨[⟨"a", -3, "withdraw_hold", some "w1"⟩],
                  [⟨"w1", "a", "t", 3, .pending⟩], [], 0⟩
                "a" 3 "withdraw_reject_release" (some "w1"))
              "w1" .rejected)) ∧
    (((⟨"w1", "a", "t", 3, .pending⟩ : WRow).status ≠ .pending ∧
        (⟨"w1", "a", "t", 3, .pending⟩ : WRow).status ≠ .processing) →
      rejectV1 ⟨[⟨"a", -3, "withdraw_hold", some "w1"⟩],
          [⟨"w1", "a", "t", 3, .pending⟩], [], 0⟩ "w1"
        = (.errBadStatus, ⟨[⟨"a", -3, "withdraw_hold", some "w1"⟩],
            [⟨"w1", "a", "t", 3, .pending⟩], [], 0⟩)) :=
  c6_reject_status_gate _ "w1" ⟨"w1", "a", "t", 3, .pending⟩ (by decide)

/-- C6 counterexample — the first reject variant succeeds on a withdrawal
whose status is `processing`, refuting "rejectWithdrawal succeeds only when
the withdrawal's status is pending": on a concrete `processing` row it
returns success and sets the status to `rejected`. -/
theorem c6_rejectV1_accepts_processing :
    (rejectV1 ⟨[⟨"a", -3, "withdraw_hold", some "w1"⟩],
        [⟨"w1", "a", "t", 3, .processing⟩], [], 0⟩ "w1").1
      = RejectOutcome.rejectedOk ∧
    (findW (rejectV1 ⟨[⟨"a", -3, "withdraw_hold", some "w1"⟩],
        [⟨"w1", "a", "t", 3, .processing⟩], [], 0⟩ "w1").2 "w1").map WRow.status
      = some WStatus.rejected := by
  constructor
  · rfl
  · rfl

/-! ## C4 — auto-payout failure path -/

theorem findW_insert_head (s : St) (row : WRow) (wid : String)
    (h : row.id = wid) :
    findW { s with wds := row :: s.wds } wid = some row := by
  unfold findW
  rw [List.find?_cons_of_pos _ (by simp [h])]

/-- Destructure a successful hold transaction. -/
theorem withdrawRequestTxn_ok (s s1 : St) (a toA wid : String) (amount : Int)
    (auto : Bool) (hok : withdrawRequestTxn s a toA wid amount auto = .ok s1) :
    findW s wid = none ∧ amount ≤ balanceOf s a ∧
    s1 = addLedger
        { s with wds := ⟨wid, a, toA, amount,
            if auto then WStatus.processing else WStatus.pending⟩ :: s.wds }
        a (-amount) "withdraw_hold" (some wid) := by
  unfold withdrawRequestTxn at hok
  by_cases h1 : (findW s wid).isSome
  · rw [if_pos h1] at hok
    exact absurd hok (by simp)
  · rw [if_neg h1] at hok
    by_cases h2 : balanceOf s a < amount
    · rw [if_pos h2] at hok
      exact absurd hok (by simp)
    · rw [if_neg h2] at hok
      simp only [Except.ok.injEq] at hok
      exact ⟨Option.not_isSome_iff_eq_none.mp h1, not_lt.mp h2, hok.symm⟩

/-- C4 — when the auto-pay path's gateway call fails, the handler appends
exactly one `withdraw_release` ledger entry with the hold's reference and
sets the withdrawal's status to `failed`, so the address's balance returns
to its value before the request. -/
theorem c4_autopay_failure_restores_balance (s : St) (a toA wid : String)
    (amount : Int) (s1 : St)
    (hok : withdrawRequestTxn s a toA wid amount true = .ok s1)
    (hnorel : countReasonRef s "withdraw_release" wid = 0) :
    (findW (autoFinishFail (callGateway s1) a amount wid) wid).map WRow.status
        = some WStatus.failed ∧
    countReasonRef (autoFinishFail (callGateway s1) a amount wid)
        "withdraw_release" wid = 1 ∧
    balanceOf (autoFinishFail (callGateway s1) a amount wid) a = balanceOf s a := by
  obtain ⟨hnone, hbal, hs1⟩ := withdrawRequestTxn_ok s s1 a toA wid amount true hok
  subst hs1
  refine ⟨?_, ?_, ?_⟩
  · unfold autoFinishFail
    rw [findW_setWStatus_self, findW_addLedger, findW_callGateway, findW_addLedger]
    rw [findW_insert_head _ _ _ rfl]
    rfl
  · unfold autoFinishFail
    rw [countReasonRef_setWStatus, countReasonRef_addLedger,
      countReasonRef_callGateway, countReasonRef_addLedger]
    have hc1 : ¬ (("withdraw_hold" : String) = "withdraw_release"
        ∧ (some wid : Option String) = some wid) := by
      intro h
      exact absurd h.1 (by decide)
    have hc2 : ("withdraw_release" : String) = "withdraw_release"
        ∧ (some wid : Option String) = some wid := ⟨rfl, rfl⟩
    rw [if_neg hc1, if_pos hc2]
    show countReasonRef s "withdraw_release" wid + 0 + 1 = 1
    rw [hnorel]
  · unfold autoFinishFail
    rw [balanceOf_setWStatus, balanceOf_addLedger]
    rw [if_pos rfl, balanceOf_callGateway, balanceOf_addLedger, if_pos rfl]
    show balanceOf s a + -amount + amount = balanceOf s a
    ring

/-- Witness for `c4_autopay_failure_restores_balance` at the spec's
Scenario C: balance 10, withdraw 3, gateway fails — status `failed`,
exactly one release, balance 10 again. -/
theorem c4_autopay_failure_witness :
    (findW (autoFinishFail (callGateway
        ⟨[⟨"a", -3, "withdraw_hold", some "w1"⟩, ⟨"a", 10, "deposit", some "d1"⟩],
         [⟨"w1", "a", "t", 3, .processing⟩], [], 0⟩) "a" 3 "w1") "w1").map WRow.status
      = some WStatus.failed ∧
    countReasonRef (autoFinishFail (callGateway
        ⟨[⟨"a", -3, "withdraw_hold", some "w1"⟩, ⟨"a", 10, "deposit", some "d1"⟩],
         [⟨"w1", "a", "t", 3, .processing⟩], [], 0⟩) "a" 3 "w1")
        "withdraw_release" "w1" = 1 ∧
    balanceOf (autoFinishFail (callGateway
        ⟨[⟨"a", -3, "withdraw_hold", some "w1"⟩, ⟨"a", 10, "deposit", some "d1"⟩],
         [⟨"w1", "a", "t", 3, .processing⟩], [], 0⟩) "a" 3 "w1") "a"
      = balanceOf ⟨[⟨"a", 10, "deposit", some "d1"⟩], [], [], 0⟩ "a" :=
  c4_autopay_failure_restores_balance
    ⟨[⟨"a", 10, "deposit", some "d1"⟩], [], [], 0⟩ "a" "t" "w1" 3
    ⟨[⟨"a", -3, "withdraw_hold", some "w1"⟩, ⟨"a", 10, "deposit", some "d1"⟩],
     [⟨"w1", "a", "t", 3, .processing⟩], [], 0⟩
    (by rfl) (by decide)

/-! ## C7 — deposit confirmation idempotence -/

/-- C7 — confirming the same deposit twice credits the ledger exactly once:
a first confirmation of a pending deposit appends exactly one `deposit`
ledger entry referencing the deposit id, and a second run of the
confirmation is a no-op; on an already-confirmed deposit both the Postgres
poller transaction (status re-check under row lock) and the sqlite poller
(pending filter plus `alreadyLedgered` reference check) change nothing,
the duplicate being detected before any append. -/
theorem c7_deposit_confirm_idempotent (s : St) (did : String) (d : DRow)
    (hd : findD s did = some d) :
    (d.status = .dpending →
      countReasonRef (depositConfirmTxn s did) "deposit" did
        = countReasonRef s "deposit" did + 1 ∧
      depositConfirmTxn (depositConfirmTxn s did) did = depositConfirmTxn s did) ∧
    (d.status = .confirmed →
      depositConfirmTxn s did = s ∧ depositConfirmSqlite s did = s) := by
  constructor
  · intro hp
    have hnot : ¬ (d.status ≠ DStatus.dpending) := by simp [hp]
    have heq : depositConfirmTxn s did
        = addLedger (setDConfirmed s did) d.addr d.amount "deposit" (some did) := by
      unfold depositConfirmTxn
      rw [hd]
      exact if_neg hnot
    constructor
    · rw [heq, countReasonRef_addLedger, countReasonRef_setDConfirmed,
        if_pos ⟨rfl, rfl⟩]
    · rw [heq]
      unfold depositConfirmTxn
      rw [findD_addLedger, findD_setDConfirmed_self, hd]
      exact if_pos (by simp)
  · intro hc
    have hnot : d.status ≠ DStatus.dpending := by simp [hc]
    constructor
    · unfold depositConfirmTxn
      rw [hd]
      exact if_pos hnot
    · unfold depositConfirmSqlite
      rw [hd]
      exact if_pos hnot

/-- Witness for `c7_deposit_confirm_idempotent` on a concrete pending
deposit. -/
theorem c7_deposit_confirm_witness :
    ((⟨"d1", "a", 10, .dpending⟩ : DRow).status = .dpending →
      countReasonRef (depositConfirmTxn ⟨[], [], [⟨"d1", "a", 10, .dpending⟩], 0⟩ "d1")
          "deposit" "d1"
        = countReasonRef ⟨[], [], [⟨"d1", "a", 10, .dpending⟩], 0⟩ "deposit" "d1" + 1 ∧
      depositConfirmTxn
          (depositConfirmTxn ⟨[], [], [⟨"d1", "a", 10, .dpending⟩], 0⟩ "d1") "d1"
        = depositConfirmTxn ⟨[], [], [⟨"d1", "a", 10, .dpending⟩], 0⟩ "d1") ∧
    ((⟨"d1", "a", 10, .dpending⟩ : DRow).status = .confirmed →
      depositConfirmTxn ⟨[], [], [⟨"d1", "a", 10, .dpending⟩], 0⟩ "d1"
        = ⟨[], [], [⟨"d1", "a", 10, .dpending⟩], 0⟩ ∧
      depositConfirmSqlite ⟨[], [], [⟨"d1", "a", 10, .dpending⟩], 0⟩ "d1"
        = ⟨[], [], [⟨"d1", "a", 10, .dpending⟩], 0⟩) :=
  c7_deposit_confirm_idempotent ⟨[], [], [⟨"d1", "a", 10, .dpending⟩], 0⟩ "d1"
    ⟨"d1", "a", 10, .dpending⟩ (by decide)

/-! ## C2 — balance = sum of ledger, and non-negativity -/

/-- One serially executed, committed operation of the system; each
constructor is one of the source's transactions or handler continuations. -/
inductive Op
  | request (a toA wid : String) (amount : Int) (auto : Bool)
  | autoOk (wid : String)
  | autoFail (a wid : String) (amount : Int)
  | approveH (wid : String) (g : Bool)
  | approveA (wid : String) (g : Bool)
  | rejectH (wid : String)
  | rejectA (wid : String)
  | spend (a reason : String) (amount : Int)
  | credit (a reason : String) (ref : Option String) (amount : Int)
  | depCreate (did a : String) (amount : Int)
  | depConfirm (did : String)
  | depConfirmSq (did : String)

/-- Apply one committed operation; a failed transaction rolls back and
leaves the store unchanged. -/
def applyOp (s : St) : Op → St
  | .request a toA wid amount auto =>
      match withdrawRequestTxn s a toA wid amount auto with
      | .ok s' => s'
      | .error _ => s
  | .autoOk wid => autoFinishOk s wid
  | .autoFail a wid amount => autoFinishFail s a amount wid
  | .approveH wid g => (approveHardened s wid g).2
  | .approveA wid g => (approveV1 s wid g).2
  | .rejectH wid => (rejectHardened s wid).2
  | .rejectA wid => (rejectV1 s wid).2
  | .spend a reason amount =>
      match spendTxn s a amount reason with
      | .ok s' => s'
      | .error _ => s
  | .credit a reason ref amount =>
      match refundOp s a amount reason ref with
      | .ok s' => s'
      | .error _ => s
  | .depCreate did a amount =>
      match depositCreate s did a amount with
      | .ok s' => s'
      | .error _ => s
  | .depConfirm did => depositConfirmTxn s did
  | .depConfirmSq did => depositConfirmSqlite s did

/-- The amount parameters that reach an operation are non-negative
nanotons: they are produced upstream by `tonToNanoBig` (a `Nat`) from a
validated positive decimal. -/
def OpWF : Op → Prop
  | .request _ _ _ amount _ => 0 ≤ amount
  | .autoFail _ _ amount => 0 ≤ amount
  | .depCreate _ _ amount => 0 ≤ amount
  | _ => True

instance : DecidablePred OpWF := fun op => by
  cases op <;> simp only [OpWF] <;> infer_instance

/-- Store well-formedness: all balances non-negative, all stored
withdrawal and deposit amounts non-negative. -/
def StWF (s : St) : Prop :=
  (∀ a, 0 ≤ balanceOf s a) ∧ (∀ w ∈ s.wds, 0 ≤ w.amount) ∧
  (∀ d ∈ s.deps, 0 ≤ d.amount)

theorem stWF_addLedger {s : St} (h : StWF s) (a : String) {δ : Int}
    (hδ : 0 ≤ δ) (r : String) (ref : Option String) :
    StWF (addLedger s a δ r ref) := by
  obtain ⟨hbal, hw, hd⟩ := h
  refine ⟨?_, hw, hd⟩
  intro x
  rw [balanceOf_addLedger]
  by_cases hx : a = x
  · rw [if_pos hx]
    have := hbal x
    linarith
  · rw [if_neg hx]
    exact hbal x

theorem stWF_setWStatus {s : St} (h : StWF s) (wid : String) (st : WStatus) :
    StWF (setWStatus s wid st) := by
  obtain ⟨hbal, hw, hd⟩ := h
  refine ⟨hbal, ?_, hd⟩
  intro w hwm
  unfold setWStatus at hwm
  simp only [List.mem_map] at hwm
  obtain ⟨w0, hw0, rfl⟩ := hwm
  by_cases hid : w0.id = wid
  · simpa [hid] using hw w0 hw0
  · simpa [hid] using hw w0 hw0

theorem stWF_setDConfirmed {s : St} (h : StWF s) (did : String) :
    StWF (setDConfirmed s did) := by
  obtain ⟨hbal, hw, hd⟩ := h
  refine ⟨hbal, hw, ?_⟩
  intro d hdm
  unfold setDConfirmed at hdm
  simp only [List.mem_map] at hdm
  obtain ⟨d0, hd0, rfl⟩ := hdm
  by_cases hid : d0.id = did
  · simpa [hid] using hd d0 hd0
  · simpa [hid] using hd d0 hd0

theorem stWF_callGateway {s : St} (h : StWF s) : StWF (callGateway s) := h

/-- Destructure a successful lock-and-mark-processing transaction. -/
theorem approveLockTxn_ok (s : St) (wid : String) (w : WRow) (s1 : St)
    (h : approveLockTxn s wid = .ok (w, s1)) :
    findW s wid = some w ∧ w.status = .pending
      ∧ s1 = setWStatus s wid .processing := by
  unfold approveLockTxn at h
  split at h
  · exact absurd h (by simp)
  next w0 heq =>
    split at h
    · exact absurd h (by simp)
    next hst =>
      simp only [Except.ok.injEq, Prod.mk.injEq] at h
      obtain ⟨h1, h2⟩ := h
      subst h1
      exact ⟨heq, not_not.mp hst, h2.symm⟩

/-- Every committed operation preserves store well-formedness: in
particular no single committed operation drives any balance negative. -/
theorem stWF_applyOp {s : St} (h : StWF s) (op : Op) (hop : OpWF op) :
    StWF (applyOp s op) := by
  obtain ⟨hbal, hw, hd⟩ := h
  cases op with
  | request a toA wid amount auto =>
      simp only [applyOp]
      cases hE : withdrawRequestTxn s a toA wid amount auto with
      | error e => exact ⟨hbal, hw, hd⟩
      | ok s' =>
          obtain ⟨hnone, hble, hs'⟩ := withdrawRequestTxn_ok _ _ _ _ _ _ _ hE
          subst hs'
          refine ⟨?_, ?_, hd⟩
          · intro x
            rw [balanceOf_addLedger]
            by_cases hx : a = x
            · rw [if_pos hx]
              subst hx
              show (0 : Int) ≤ balanceOf s a + -amount
              linarith
            · rw [if_neg hx]
              exact hbal x
          · intro w hwm
            rcases List.mem_cons.mp hwm with rfl | hmem
            · exact hop
            · exact hw w hmem
  | autoOk wid => exact stWF_setWStatus ⟨hbal, hw, hd⟩ wid .paid
  | autoFail a wid amount =>
      exact stWF_setWStatus
        (stWF_addLedger ⟨hbal, hw, hd⟩ a hop "withdraw_release" (some wid)) wid .failed
  | approveH wid g =>
      simp only [applyOp]
      unfold approveHardened
      cases hE : approveLockTxn s wid with
      | error e => exact ⟨hbal, hw, hd⟩
      | ok p =>
          obtain ⟨w, s1⟩ := p
          obtain ⟨hf, hp, hs1⟩ := approveLockTxn_ok s wid w s1 hE
          subst hs1
          have hw0 : 0 ≤ w.amount :=
            hw w (List.mem_of_find?_eq_some hf)
          cases g with
          | true =>
              show StWF (markPaid (callGateway (setWStatus s wid .processing)) wid)
              exact stWF_setWStatus
                (stWF_callGateway (stWF_setWStatus ⟨hbal, hw, hd⟩ wid .processing))
                wid .paid
          | false =>
              show StWF (releaseAndFail (callGateway (setWStatus s wid .processing)) w)
              unfold releaseAndFail
              exact stWF_setWStatus
                (stWF_addLedger
                  (stWF_callGateway (stWF_setWStatus ⟨hbal, hw, hd⟩ wid .processing))
                  w.addr hw0 "withdraw_release" (some w.id))
                w.id .failed
  | approveA wid g =>
      simp only [applyOp]
      unfold approveV1
      cases hE : approveV1Read s wid with
      | error e => exact ⟨hbal, hw, hd⟩
      | ok w =>
          cases g with
          | true =>
              show StWF (markPaid (callGateway s) wid)
              exact stWF_setWStatus (stWF_callGateway ⟨hbal, hw, hd⟩) wid .paid
          | false =>
              show StWF (callGateway s)
              exact stWF_callGateway ⟨hbal, hw, hd⟩
  | rejectH wid =>
      simp only [applyOp]
      unfold rejectHardened
      split
      · exact ⟨hbal, hw, hd⟩
      next w hf =>
        split
        next hp =>
          have hw0 : 0 ≤ w.amount := hw w (List.mem_of_find?_eq_some hf)
          exact stWF_setWStatus
            (stWF_addLedger ⟨hbal, hw, hd⟩ w.addr hw0 "withdraw_reject_release"
              (some wid)) wid .rejected
        next hp => exact ⟨hbal, hw, hd⟩
  | rejectA wid =>
      simp only [applyOp]
      unfold rejectV1
      split
      · exact ⟨hbal, hw, hd⟩
      next w hf =>
        split
        next hp =>
          have hw0 : 0 ≤ w.amount := hw w (List.mem_of_find?_eq_some hf)
          exact stWF_setWStatus
            (stWF_addLedger ⟨hbal, hw, hd⟩ w.addr hw0 "withdraw_reject_release"
              (some wid)) wid .rejected
        next hp => exact ⟨hbal, hw, hd⟩
  | spend a reason amount =>
      simp only [applyOp]
      cases hE : spendTxn s a amount reason with
      | error e => exact ⟨hbal, hw, hd⟩
      | ok s' =>
          unfold spendTxn at hE
          by_cases h2 : balanceOf s a < amount
          · rw [if_pos h2] at hE
            exact absurd hE (by simp)
          · rw [if_neg h2] at hE
            simp only [Except.ok.injEq] at hE
            subst hE
            refine ⟨?_, hw, hd⟩
            intro x
            rw [balanceOf_addLedger]
            by_cases hx : a = x
            · rw [if_pos hx]
              subst hx
              have := not_lt.mp h2
              linarith
            · rw [if_neg hx]
              exact hbal x
  | credit a reason ref amount =>
      simp only [applyOp]
      unfold refundOp
      by_cases h2 : amount ≤ 0
      · rw [if_pos h2]
        exact ⟨hbal, hw, hd⟩
      · rw [if_neg h2]
        exact stWF_addLedger ⟨hbal, hw, hd⟩ a (le_of_lt (not_le.mp h2)) reason ref
  | depCreate did a amount =>
      simp only [applyOp]
      unfold depositCreate
      by_cases h1 : (findD s did).isSome
      · rw [if_pos h1]
        exact ⟨hbal, hw, hd⟩
      · rw [if_neg h1]
        refine ⟨hbal, hw, ?_⟩
        intro d hdm
        rcases List.mem_cons.mp hdm with rfl | hmem
        · exact hop
        · exact hd d hmem
  | depConfirm did =>
      simp only [applyOp]
      unfold depositConfirmTxn
      split
      · exact ⟨hbal, hw, hd⟩
      next d hf =>
        split
        next hst => exact ⟨hbal, hw, hd⟩
        next hst =>
          have hd0 : 0 ≤ d.amount := hd d (List.mem_of_find?_eq_some hf)
          exact stWF_addLedger (stWF_setDConfirmed ⟨hbal, hw, hd⟩ did)
            d.addr hd0 "deposit" (some did)
  | depConfirmSq did =>
      simp only [applyOp]
      unfold depositConfirmSqlite
      split
      · exact ⟨hbal, hw, hd⟩
      next d hf =>
        split
        next hst => exact ⟨hbal, hw, hd⟩
        next hst =>
          have hd0 : 0 ≤ d.amount := hd d (List.mem_of_find?_eq_some hf)
          split
          next hal => exact stWF_setDConfirmed ⟨hbal, hw, hd⟩ did
          next hal =>
            exact stWF_addLedger (stWF_setDConfirmed ⟨hbal, hw, hd⟩ did)
              d.addr hd0 "deposit" (some did)

theorem stWF_st0 : StWF st0 :=
  ⟨fun _ => le_refl 0, fun w hwm => absurd hwm (List.not_mem_nil w),
   fun d hdm => absurd hdm (List.not_mem_nil d)⟩

theorem stWF_foldl (ops : List Op) (hops : ∀ op ∈ ops, OpWF op) {s : St}
    (h : StWF s) : StWF (ops.foldl applyOp s) := by
  induction ops generalizing s with
  | nil => exact h
  | cons op rest ih =>
      exact ih (fun o ho => hops o (by simp [ho]))
        (stWF_applyOp h op (hops op (by simp)))

/-- C2 (amended) — for every address, the balance is by construction the
sum of the deltas of its ledger entries, and after any serially executed
sequence of committed operations (holds, spends, releases, credits,
deposit confirmations) every balance is non-negative: each hold or spend
performs its balance check and its negative ledger append inside one
transaction, which suffices when operations commit one at a time.  (The
concurrent half of the original claim is refuted separately: the
transaction takes no row lock and runs at READ COMMITTED, so two
overlapping holds can both pass the check.) -/
theorem c2_balance_sum_and_nonneg_serial (ops : List Op)
    (hops : ∀ op ∈ ops, OpWF op) (a : String) :
    balanceOf (ops.foldl applyOp st0) a
      = ((((ops.foldl applyOp st0).ledger.filter (fun e => e.addr = a)).map
          (fun e => e.delta)).sum) ∧
    0 ≤ balanceOf (ops.foldl applyOp st0) a :=
  ⟨balanceOf_eq_sum _ a, (stWF_foldl ops hops stWF_st0).1 a⟩

/-- Witness for `c2_balance_sum_and_nonneg_serial`: deposit 10, hold 3. -/
theorem c2_balance_nonneg_witness :
    balanceOf ([Op.credit "a" "bonus_claim" none 10,
        Op.request "a" "t" "w1" 3 false].foldl applyOp st0) "a"
      = (((([Op.credit "a" "bonus_claim" none 10,
          Op.request "a" "t" "w1" 3 false].foldl applyOp st0).ledger.filter
            (fun e => e.addr = "a")).map (fun e => e.delta)).sum) ∧
    0 ≤ balanceOf ([Op.credit "a" "bonus_claim" none 10,
        Op.request "a" "t" "w1" 3 false].foldl applyOp st0) "a" :=
  c2_balance_sum_and_nonneg_serial
    [Op.credit "a" "bonus_claim" none 10, Op.request "a" "t" "w1" 3 false]
    (by decide) "a"

/-- The balance read of the hold transaction (withdraw_routes.js 85-90) as
the database executes it: the plain `BEGIN` sets no isolation level
(Postgres default READ COMMITTED) and takes no row or aggregate lock, so
the SUM sees exactly the rows committed at the moment it runs. -/
def holdTxnReadBal (s : St) (a : String) : Int := balanceOf s a

/-- The decision-and-write half of the same hold transaction
(withdraw_routes.js 90-108), acting on the snapshot `bal` obtained by
`holdTxnReadBal`: abort if `bal < amount`, else commit the withdrawal row
and the hold entry.  Under READ COMMITTED the append-only inserts of a
concurrently committed hold conflict with nothing, so this commit succeeds
even if another hold committed after the read. -/
def holdTxnCommit (s : St) (bal : Int) (a toA wid : String) (amount : Int)
    (auto : Bool) : Except String St :=
  if bal < amount then .error "Недостаточно средств"
  else
    .ok (addLedger
      { s with wds := ⟨wid, a, toA, amount,
          if auto then WStatus.processing else WStatus.pending⟩ :: s.wds }
      a (-amount) "withdraw_hold" (some wid))

/-- The uninterleaved hold transaction is read followed by commit. -/
theorem withdrawRequestTxn_eq_read_commit (s : St) (a toA wid : String)
    (amount : Int) (auto : Bool) :
    withdrawRequestTxn s a toA wid amount auto
      = if (findW s wid).isSome then .error "duplicate id"
        else holdTxnCommit s (holdTxnReadBal s a) a toA wid amount auto := rfl

/-- The interleaving read₁, read₂, commit₁, commit₂ of two concurrent hold
transactions against the same balance-10 account, each holding 10. -/
def twoHoldsInterleaved : Except String St :=
  let s0 := addLedger st0 "a" 10 "deposit" (some "d1")
  let b1 := holdTxnReadBal s0 "a"
  let b2 := holdTxnReadBal s0 "a"
  match holdTxnCommit s0 b1 "a" "t" "w1" 10 false with
  | .error e => .error e
  | .ok s1 => holdTxnCommit s1 b2 "a" "t" "w2" 10 false

/-- C2 counterexample — two concurrent withdrawal requests against the
same near-zero balance CAN both pass the check: with balance 10 and two
concurrent holds of 10 interleaved as read₁ read₂ commit₁ commit₂ (legal
at READ COMMITTED, which the source's bare `BEGIN` uses, with no
`FOR UPDATE` on any ledger aggregate), both commits succeed, both holds
are appended, and the committed balance is −10 — refuting both "two
concurrent withdrawal requests against the same near-zero balance cannot
both pass the check" and "the balance is never negative". -/
theorem c2_concurrent_holds_negative_balance :
    Except.map (fun s => balanceOf s "a") twoHoldsInterleaved = .ok (-10) ∧
    Except.map (fun s => countReasonRef s "withdraw_hold" "w1"
        + countReasonRef s "withdraw_hold" "w2") twoHoldsInterleaved = .ok 2 := by
  constructor
  · rfl
  · rfl

/-! ## C3 — hold/release accounting per withdrawal -/

/-- A complete, non-interleaved flow of the system: each constructor runs
one user-visible operation to completion (for the auto-payout path, the
hold transaction together with its gateway continuation). -/
inductive SysFlow
  | fRequest (a toA wid : String) (amount : Int)
  | fRequestAutoOk (a toA wid : String) (amount : Int)
  | fRequestAutoFail (a toA wid : String) (amount : Int)
  | fApproveH (wid : String) (g : Bool)
  | fRejectH (wid : String)
  | fSpend (a reason : String) (amount : Int)
  | fCredit (a reason : String) (amount : Int)
  | fDepCreate (did a : String) (amount : Int)
  | fDepConfirm (did : String)

def applyFlow (s : St) : SysFlow → St
  | .fRequest a toA wid amount => applyOp s (.request a toA wid amount false)
  | .fRequestAutoOk a toA wid amount =>
      match withdrawRequestTxn s a toA wid amount true with
      | .error _ => s
      | .ok s1 => autoFinishOk (callGateway s1) wid
  | .fRequestAutoFail a toA wid amount =>
      match withdrawRequestTxn s a toA wid amount true with
      | .error _ => s
      | .ok s1 => autoFinishFail (callGateway s1) a amount wid
  | .fApproveH wid g => (approveHardened s wid g).2
  | .fRejectH wid => (rejectHardened s wid).2
  | .fSpend a reason amount => applyOp s (.spend a reason amount)
  | .fCredit a reason amount => applyOp s (.credit a reason none amount)
  | .fDepCreate did a amount => applyOp s (.depCreate did a amount)
  | .fDepConfirm did => depositConfirmTxn s did

/-- A user-supplied reason string that does not masquerade as withdrawal
bookkeeping (the spend/refund routes take the reason from the request
body). -/
def reasonBenign (r : String) : Prop :=
  r ≠ "withdraw_hold" ∧ r ≠ "withdraw_release" ∧ r ≠ "withdraw_reject_release"

def FlowWF : SysFlow → Prop
  | .fSpend _ reason _ => reasonBenign reason
  | .fCredit _ reason _ => reasonBenign reason
  | _ => True

instance : DecidablePred FlowWF := fun f => by
  cases f <;> simp only [FlowWF, reasonBenign] <;> infer_instance

/-- The per-withdrawal accounting invariant: one hold entry per existing
withdrawal; a `withdraw_release` entry exactly when the status is
`failed`; a `withdraw_reject_release` entry exactly when it is
`rejected`; nothing for `pending` / `processing` / `paid`. -/
def WidInv (s : St) (wid : String) : Prop :=
  (findW s wid = none →
      countReasonRef s "withdraw_hold" wid = 0 ∧
      countReasonRef s "withdraw_release" wid = 0 ∧
      countReasonRef s "withdraw_reject_release" wid = 0) ∧
  (∀ w, findW s wid = some w →
      countReasonRef s "withdraw_hold" wid = 1 ∧
      ((w.status = .pending ∨ w.status = .processing ∨ w.status = .paid) →
          countReasonRef s "withdraw_release" wid = 0 ∧
          countReasonRef s "withdraw_reject_release" wid = 0) ∧
      (w.status = .failed →
          countReasonRef s "withdraw_release" wid = 1 ∧
          countReasonRef s "withdraw_reject_release" wid = 0) ∧
      (w.status = .rejected →
          countReasonRef s "withdraw_release" wid = 0 ∧
          countReasonRef s "withdraw_reject_release" wid = 1))

theorem widInv_congr {s s' : St} {wid : String} (hInv : WidInv s wid)
    (hfw : findW s' wid = findW s wid)
    (h1 : countReasonRef s' "withdraw_hold" wid
        = countReasonRef s "withdraw_hold" wid)
    (h2 : countReasonRef s' "withdraw_release" wid
        = countReasonRef s "withdraw_release" wid)
    (h3 : countReasonRef s' "withdraw_reject_release" wid
        = countReasonRef s "withdraw_reject_release" wid) :
    WidInv s' wid := by
  obtain ⟨hz, hsome⟩ := hInv
  constructor
  · intro hn
    rw [hfw] at hn
    obtain ⟨a1, a2, a3⟩ := hz hn
    exact ⟨h1.trans a1, h2.trans a2, h3.trans a3⟩
  · intro w hws
    rw [hfw] at hws
    obtain ⟨a1, a2, a3, a4⟩ := hsome w hws
    exact ⟨h1.trans a1,
      fun hst => ⟨h2.trans (a2 hst).1, h3.trans (a2 hst).2⟩,
      fun hst => ⟨h2.trans (a3 hst).1, h3.trans (a3 hst).2⟩,
      fun hst => ⟨h2.trans (a4 hst).1, h3.trans (a4 hst).2⟩⟩

theorem widInv_build {s' : St} {wid : String} (w' : WRow)
    (hfw : findW s' wid = some w')
    (h1 : countReasonRef s' "withdraw_hold" wid = 1)
    (h2 : (w'.status = .pending ∨ w'.status = .processing ∨ w'.status = .paid) →
        countReasonRef s' "withdraw_release" wid = 0 ∧
        countReasonRef s' "withdraw_reject_release" wid = 0)
    (h3 : w'.status = .failed →
        countReasonRef s' "withdraw_release" wid = 1 ∧
        countReasonRef s' "withdraw_reject_release" wid = 0)
    (h4 : w'.status = .rejected →
        countReasonRef s' "withdraw_release" wid = 0 ∧
        countReasonRef s' "withdraw_reject_release" wid = 1) :
    WidInv s' wid := by
  constructor
  · intro hn
    rw [hfw] at hn
    exact absurd hn (by simp)
  · intro w hws
    rw [hfw] at hws
    have hww : w' = w := by simpa using hws
    subst hww
    exact ⟨h1, h2, h3, h4⟩

theorem findW_insert_ne (s : St) (row : WRow) (wid : String)
    (h : row.id ≠ wid) :
    findW { s with wds := row :: s.wds } wid = findW s wid := by
  unfold findW
  rw [List.find?_cons_of_neg _ (by simp [h])]

theorem countReasonRef_insertW (s : St) (row : WRow) (rsn wid : String) :
    countReasonRef { s with wds := row :: s.wds } rsn wid
      = countReasonRef s rsn wid := rfl

theorem countReasonRef_addLedger_same (s : St) (a : String) (δ : Int)
    (r wid : String) :
    countReasonRef (addLedger s a δ r (some wid)) r wid
      = countReasonRef s r wid + 1 := by
  rw [countReasonRef_addLedger, if_pos ⟨rfl, rfl⟩]

theorem countReasonRef_addLedger_diffReason (s : St) (a : String) (δ : Int)
    (r : String) (ref : Option String) (r' wid : String) (h : ¬ r = r') :
    countReasonRef (addLedger s a δ r ref) r' wid
      = countReasonRef s r' wid := by
  rw [countReasonRef_addLedger, if_neg (fun hc => h hc.1)]
  omega

theorem countReasonRef_addLedger_diffRef (s : St) (a : String) (δ : Int)
    (r wid' : String) (r' wid : String) (h : ¬ wid' = wid) :
    countReasonRef (addLedger s a δ r (some wid')) r' wid
      = countReasonRef s r' wid := by
  rw [countReasonRef_addLedger,
    if_neg (fun hc => h (by simpa using hc.2))]
  omega

/-- The status of the row a successful `find?` returns matches the key. -/
theorem findW_some_id {s : St} {wid : String} {w : WRow}
    (h : findW s wid = some w) : w.id = wid := by
  unfold findW at h
  have := List.find?_some h
  exact of_decide_eq_true this

/-- Manual request specialization (`auto = false`, initial `pending`). -/
theorem withdrawRequestTxn_ok_manual (s s1 : St) (a toA wid : String)
    (amount : Int)
    (hok : withdrawRequestTxn s a toA wid amount false = .ok s1) :
    findW s wid = none ∧ amount ≤ balanceOf s a ∧
    s1 = addLedger
        { s with wds := ⟨wid, a, toA, amount, WStatus.pending⟩ :: s.wds }
        a (-amount) "withdraw_hold" (some wid) :=
  withdrawRequestTxn_ok s s1 a toA wid amount false hok

/-- Auto request specialization (`auto = true`, initial `processing`). -/
theorem withdrawRequestTxn_ok_auto (s s1 : St) (a toA wid : String)
    (amount : Int)
    (hok : withdrawRequestTxn s a toA wid amount true = .ok s1) :
    findW s wid = none ∧ amount ≤ balanceOf s a ∧
    s1 = addLedger
        { s with wds := ⟨wid, a, toA, amount, WStatus.processing⟩ :: s.wds }
        a (-amount) "withdraw_hold" (some wid) :=
  withdrawRequestTxn_ok s s1 a toA wid amount true hok

/-- Each complete flow preserves the per-withdrawal accounting invariant. -/
theorem widInv_applyFlow {s : St} {wid : String} (hInv : WidInv s wid)
    (f : SysFlow) (hwf : FlowWF f) : WidInv (applyFlow s f) wid := by
  cases f with
  | fRequest a toA wid' amount =>
      simp only [applyFlow, applyOp]
      cases hE : withdrawRequestTxn s a toA wid' amount false with
      | error e => exact hInv
      | ok s' =>
          obtain ⟨hnone, _, hs'⟩ := withdrawRequestTxn_ok_manual _ _ _ _ _ _ hE
          subst hs'
          by_cases hid : wid' = wid
          · subst hid
            obtain ⟨hz, _⟩ := hInv
            obtain ⟨hz1, hz2, hz3⟩ := hz hnone
            refine widInv_build ⟨wid', a, toA, amount, WStatus.pending⟩ ?_ ?_ ?_ ?_ ?_
            · rw [findW_addLedger, findW_insert_head _ _ _ rfl]
            · rw [countReasonRef_addLedger_same, countReasonRef_insertW, hz1]
            · intro _
              constructor
              · rw [countReasonRef_addLedger_diffReason _ _ _ _ _ _ _ (by decide),
                  countReasonRef_insertW, hz2]
              · rw [countReasonRef_addLedger_diffReason _ _ _ _ _ _ _ (by decide),
                  countReasonRef_insertW, hz3]
            · intro hst; simp at hst
            · intro hst; simp at hst
          · refine widInv_congr hInv ?_ ?_ ?_ ?_
            · rw [findW_addLedger, findW_insert_ne _ _ _ (by simpa using hid)]
            · rw [countReasonRef_addLedger_diffRef _ _ _ _ _ _ _ hid,
                countReasonRef_insertW]
            · rw [countReasonRef_addLedger_diffRef _ _ _ _ _ _ _ hid,
                countReasonRef_insertW]
            · rw [countReasonRef_addLedger_diffRef _ _ _ _ _ _ _ hid,
                countReasonRef_insertW]
  | fRequestAutoOk a toA wid' amount =>
      simp only [applyFlow]
      cases hE : withdrawRequestTxn s a toA wid' amount true with
      | error e => exact hInv
      | ok s1 =>
          obtain ⟨hnone, _, hs1⟩ := withdrawRequestTxn_ok_auto _ _ _ _ _ _ hE
          subst hs1
          unfold autoFinishOk
          by_cases hid : wid' = wid
          · subst hid
            obtain ⟨hz, _⟩ := hInv
            obtain ⟨hz1, hz2, hz3⟩ := hz hnone
            refine widInv_build ⟨wid', a, toA, amount, WStatus.paid⟩ ?_ ?_ ?_ ?_ ?_
            · rw [findW_setWStatus_self, findW_callGateway, findW_addLedger,
                findW_insert_head _ _ _ rfl]
              rfl
            · rw [countReasonRef_setWStatus, countReasonRef_callGateway,
                countReasonRef_addLedger_same, countReasonRef_insertW, hz1]
            · intro _
              constructor
              · rw [countReasonRef_setWStatus, countReasonRef_callGateway,
                  countReasonRef_addLedger_diffReason _ _ _ _ _ _ _ (by decide),
                  countReasonRef_insertW, hz2]
              · rw [countReasonRef_setWStatus, countReasonRef_callGateway,
                  countReasonRef_addLedger_diffReason _ _ _ _ _ _ _ (by decide),
                  countReasonRef_insertW, hz3]
            · intro hst; simp at hst
            · intro hst; simp at hst
          · refine widInv_congr hInv ?_ ?_ ?_ ?_
            · rw [findW_setWStatus_ne _ _ _ _ hid, findW_callGateway,
                findW_addLedger, findW_insert_ne _ _ _ (by simpa using hid)]
            · rw [countReasonRef_setWStatus, countReasonRef_callGateway,
                countReasonRef_addLedger_diffRef _ _ _ _ _ _ _ hid,
                countReasonRef_insertW]
            · rw [countReasonRef_setWStatus, countReasonRef_callGateway,
                countReasonRef_addLedger_diffRef _ _ _ _ _ _ _ hid,
                countReasonRef_insertW]
            · rw [countReasonRef_setWStatus, countReasonRef_callGateway,
                countReasonRef_addLedger_diffRef _ _ _ _ _ _ _ hid,
                countReasonRef_insertW]
  | fRequestAutoFail a toA wid' amount =>
      simp only [applyFlow]
      cases hE : withdrawRequestTxn s a toA wid' amount true with
      | error e => exact hInv
      | ok s1 =>
          obtain ⟨hnone, _, hs1⟩ := withdrawRequestTxn_ok_auto _ _ _ _ _ _ hE
          subst hs1
          unfold autoFinishFail
          by_cases hid : wid' = wid
          · subst hid
            obtain ⟨hz, _⟩ := hInv
            obtain ⟨hz1, hz2, hz3⟩ := hz hnone
            refine widInv_build ⟨wid', a, toA, amount, WStatus.failed⟩ ?_ ?_ ?_ ?_ ?_
            · rw [findW_setWStatus_self, findW_addLedger, findW_callGateway,
                findW_addLedger, findW_insert_head _ _ _ rfl]
              rfl
            · rw [countReasonRef_setWStatus,
                countReasonRef_addLedger_diffReason _ _ _ _ _ _ _ (by decide),
                countReasonRef_callGateway, countReasonRef_addLedger_same,
                countReasonRef_insertW, hz1]
            · intro hst; rcases hst with h | h | h <;> simp at h
            · intro _
              constructor
              · rw [countReasonRef_setWStatus, countReasonRef_addLedger_same,
                  countReasonRef_callGateway,
                  countReasonRef_addLedger_diffReason _ _ _ _ _ _ _ (by decide),
                  countReasonRef_insertW, hz2]
              · rw [countReasonRef_setWStatus,
                  countReasonRef_addLedger_diffReason _ _ _ _ _ _ _ (by decide),
                  countReasonRef_callGateway,
                  countReasonRef_addLedger_diffReason _ _ _ _ _ _ _ (by decide),
                  countReasonRef_insertW, hz3]
            · intro hst; simp at hst
          · refine widInv_congr hInv ?_ ?_ ?_ ?_
            · rw [findW_setWStatus_ne _ _ _ _ hid, findW_addLedger,
                findW_callGateway, findW_addLedger,
                findW_insert_ne _ _ _ (by simpa using hid)]
            · rw [countReasonRef_setWStatus,
                countReasonRef_addLedger_diffRef _ _ _ _ _ _ _ hid,
                countReasonRef_callGateway,
                countReasonRef_addLedger_diffRef _ _ _ _ _ _ _ hid,
                countReasonRef_insertW]
            · rw [countReasonRef_setWStatus,
                countReasonRef_addLedger_diffRef _ _ _ _ _ _ _ hid,
                countReasonRef_callGateway,
                countReasonRef_addLedger_diffRef _ _ _ _ _ _ _ hid,
                countReasonRef_insertW]
            · rw [countReasonRef_setWStatus,
                countReasonRef_addLedger_diffRef _ _ _ _ _ _ _ hid,
                countReasonRef_callGateway,
                countReasonRef_addLedger_diffRef _ _ _ _ _ _ _ hid,
                countReasonRef_insertW]
  | fApproveH wid' g =>
      simp only [applyFlow]
      unfold approveHardened
      cases hE : approveLockTxn s wid' with
      | error e => exact hInv
      | ok p =>
          obtain ⟨w, s1⟩ := p
          obtain ⟨hf, hp, hs1⟩ := approveLockTxn_ok s wid' w s1 hE
          subst hs1
          have hwid : w.id = wid' := findW_some_id hf
          cases g with
          | true =>
              show WidInv (markPaid (callGateway (setWStatus s wid' .processing)) wid') wid
              unfold markPaid
              by_cases hid : wid' = wid
              · subst hid
                obtain ⟨_, hsome⟩ := hInv
                obtain ⟨h1, h2, _, _⟩ := hsome w hf
                obtain ⟨hrel, hrrel⟩ := h2 (Or.inl hp)
                refine widInv_build { w with status := WStatus.paid } ?_ ?_ ?_ ?_ ?_
                · rw [findW_setWStatus_self, findW_callGateway,
                    findW_setWStatus_self, hf]
                  rfl
                · rw [countReasonRef_setWStatus, countReasonRef_callGateway,
                    countReasonRef_setWStatus, h1]
                · intro _
                  constructor
                  · rw [countReasonRef_setWStatus, countReasonRef_callGateway,
                      countReasonRef_setWStatus, hrel]
                  · rw [countReasonRef_setWStatus, countReasonRef_callGateway,
                      countReasonRef_setWStatus, hrrel]
                · intro hst; simp at hst
                · intro hst; simp at hst
              · refine widInv_congr hInv ?_ rfl rfl rfl
                rw [findW_setWStatus_ne _ _ _ _ hid, findW_callGateway,
                  findW_setWStatus_ne _ _ _ _ hid]
          | false =>
              show WidInv
                (releaseAndFail (callGateway (setWStatus s wid' .processing)) w) wid
              unfold releaseAndFail
              rw [hwid]
              by_cases hid : wid' = wid
              · subst hid
                obtain ⟨_, hsome⟩ := hInv
                obtain ⟨h1, h2, _, _⟩ := hsome w hf
                obtain ⟨hrel, hrrel⟩ := h2 (Or.inl hp)
                refine widInv_build { w with status := WStatus.failed } ?_ ?_ ?_ ?_ ?_
                · rw [findW_setWStatus_self, findW_addLedger, findW_callGateway,
                    findW_setWStatus_self, hf]
                  rfl
                · rw [countReasonRef_setWStatus,
                    countReasonRef_addLedger_diffReason _ _ _ _ _ _ _ (by decide),
                    countReasonRef_callGateway, countReasonRef_setWStatus, h1]
                · intro hst; rcases hst with h | h | h <;> simp at h
                · intro _
                  constructor
                  · rw [countReasonRef_setWStatus, countReasonRef_addLedger_same,
                      countReasonRef_callGateway, countReasonRef_setWStatus, hrel]
                  · rw [countReasonRef_setWStatus,
                      countReasonRef_addLedger_diffReason _ _ _ _ _ _ _ (by decide),
                      countReasonRef_callGateway, countReasonRef_setWStatus, hrrel]
                · intro hst; simp at hst
              · refine widInv_congr hInv ?_ ?_ ?_ ?_
                · rw [findW_setWStatus_ne _ _ _ _ hid, findW_addLedger,
                    findW_callGateway, findW_setWStatus_ne _ _ _ _ hid]
                · rw [countReasonRef_setWStatus,
                    countReasonRef_addLedger_diffRef _ _ _ _ _ _ _ hid,
                    countReasonRef_callGateway, countReasonRef_setWStatus]
                · rw [countReasonRef_setWStatus,
                    countReasonRef_addLedger_diffRef _ _ _ _ _ _ _ hid,
                    countReasonRef_callGateway, countReasonRef_setWStatus]
                · rw [countReasonRef_setWStatus,
                    countReasonRef_addLedger_diffRef _ _ _ _ _ _ _ hid,
                    countReasonRef_callGateway, countReasonRef_setWStatus]
  | fRejectH wid' =>
      simp only [applyFlow]
      unfold rejectHardened
      split
      · exact hInv
      next w hf =>
        split
        next hp =>
          by_cases hid : wid' = wid
          · subst hid
            obtain ⟨_, hsome⟩ := hInv
            obtain ⟨h1, h2, _, _⟩ := hsome w hf
            obtain ⟨hrel, hrrel⟩ := h2 (Or.inl hp)
            refine widInv_build { w with status := WStatus.rejected } ?_ ?_ ?_ ?_ ?_
            · rw [findW_setWStatus_self, findW_addLedger, hf]
              rfl
            · rw [countReasonRef_setWStatus,
                countReasonRef_addLedger_diffReason _ _ _ _ _ _ _ (by decide), h1]
            · intro hst; rcases hst with h | h | h <;> simp at h
            · intro hst; simp at hst
            · intro _
              constructor
              · rw [countReasonRef_setWStatus,
                  countReasonRef_addLedger_diffReason _ _ _ _ _ _ _ (by decide), hrel]
              · rw [countReasonRef_setWStatus, countReasonRef_addLedger_same, hrrel]
          · refine widInv_congr hInv ?_ ?_ ?_ ?_
            · rw [findW_setWStatus_ne _ _ _ _ hid, findW_addLedger]
            · rw [countReasonRef_setWStatus,
                countReasonRef_addLedger_diffRef _ _ _ _ _ _ _ hid]
            · rw [countReasonRef_setWStatus,
                countReasonRef_addLedger_diffRef _ _ _ _ _ _ _ hid]
            · rw [countReasonRef_setWStatus,
                countReasonRef_addLedger_diffRef _ _ _ _ _ _ _ hid]
        next hp => exact hInv
  | fSpend a reason amount =>
      simp only [applyFlow, applyOp]
      cases hE : spendTxn s a amount reason with
      | error e => exact hInv
      | ok s' =>
          unfold spendTxn at hE
          by_cases h2 : balanceOf s a < amount
          · rw [if_pos h2] at hE
            exact absurd hE (by simp)
          · rw [if_neg h2] at hE
            simp only [Except.ok.injEq] at hE
            subst hE
            obtain ⟨hb1, hb2, hb3⟩ := hwf
            refine widInv_congr hInv rfl ?_ ?_ ?_
            · exact countReasonRef_addLedger_diffReason _ _ _ _ _ _ _ hb1
            · exact countReasonRef_addLedger_diffReason _ _ _ _ _ _ _ hb2
            · exact countReasonRef_addLedger_diffReason _ _ _ _ _ _ _ hb3
  | fCredit a reason amount =>
      simp only [applyFlow, applyOp]
      cases hE : refundOp s a amount reason none with
      | error e => exact hInv
      | ok s' =>
          unfold refundOp at hE
          by_cases h2 : amount ≤ 0
          · rw [if_pos h2] at hE
            exact absurd hE (by simp)
          · rw [if_neg h2] at hE
            simp only [Except.ok.injEq] at hE
            subst hE
            obtain ⟨hb1, hb2, hb3⟩ := hwf
            refine widInv_congr hInv rfl ?_ ?_ ?_
            · exact countReasonRef_addLedger_diffReason _ _ _ _ _ _ _ hb1
            · exact countReasonRef_addLedger_diffReason _ _ _ _ _ _ _ hb2
            · exact countReasonRef_addLedger_diffReason _ _ _ _ _ _ _ hb3
  | fDepCreate did a amount =>
      simp only [applyFlow, applyOp]
      cases hE : depositCreate s did a amount with
      | error e => exact hInv
      | ok s' =>
          unfold depositCreate at hE
          by_cases h1 : (findD s did).isSome
          · rw [if_pos h1] at hE
            exact absurd hE (by simp)
          · rw [if_neg h1] at hE
            simp only [Except.ok.injEq] at hE
            subst hE
            exact widInv_congr hInv rfl rfl rfl rfl
  | fDepConfirm did =>
      simp only [applyFlow]
      unfold depositConfirmTxn
      split
      · exact hInv
      next d hf =>
        split
        next hst => exact hInv
        next hst =>
          refine widInv_congr hInv rfl ?_ ?_ ?_
          · exact countReasonRef_addLedger_diffReason _ _ _ _ _ _ _ (by decide)
          · exact countReasonRef_addLedger_diffReason _ _ _ _ _ _ _ (by decide)
          · exact countReasonRef_addLedger_diffReason _ _ _ _ _ _ _ (by decide)

theorem widInv_st0 (wid : String) : WidInv st0 wid := by
  constructor
  · intro _
    exact ⟨rfl, rfl, rfl⟩
  · intro w hw
    simp [findW, st0] at hw

theorem widInv_foldl (flows : List SysFlow) (hwf : ∀ f ∈ flows, FlowWF f)
    {s : St} {wid : String} (h : WidInv s wid) :
    WidInv (flows.foldl applyFlow s) wid := by
  induction flows generalizing s with
  | nil => exact h
  | cons f rest ih =>
      exact ih (fun f' hf' => hwf f' (by simp [hf']))
        (widInv_applyFlow h f (hwf f (by simp)))

/-- C3 (amended) — after any sequence of complete flows (each payout flow
running to completion without an admin action interleaved into it, and
user-supplied spend/credit reasons not masquerading as withdrawal
bookkeeping), every withdrawal id has exactly one `withdraw_hold` ledger
entry; a `failed` withdrawal has exactly one `withdraw_release` entry and
no `withdraw_reject_release` entry; a `rejected` withdrawal has exactly one
`withdraw_reject_release` entry — the reject release is written under that
reason, NOT `withdraw_release` — and a `pending`/`processing`/`paid`
withdrawal has neither.  (The claim's idempotency-guard clause is refuted
separately: `addLedger` appends unconditionally, with no
existing-reference check.) -/
theorem c3_hold_release_accounting (flows : List SysFlow)
    (hwf : ∀ f ∈ flows, FlowWF f) (wid : String) :
    (findW (flows.foldl applyFlow st0) wid = none →
        countReasonRef (flows.foldl applyFlow st0) "withdraw_hold" wid = 0 ∧
        countReasonRef (flows.foldl applyFlow st0) "withdraw_release" wid = 0 ∧
        countReasonRef (flows.foldl applyFlow st0) "withdraw_reject_release" wid
          = 0) ∧
    (∀ w, findW (flows.foldl applyFlow st0) wid = some w →
        countReasonRef (flows.foldl applyFlow st0) "withdraw_hold" wid = 1 ∧
        ((w.status = .pending ∨ w.status = .processing ∨ w.status = .paid) →
            countReasonRef (flows.foldl applyFlow st0) "withdraw_release" wid
              = 0 ∧
            countReasonRef (flows.foldl applyFlow st0)
              "withdraw_reject_release" wid = 0) ∧
        (w.status = .failed →
            countReasonRef (flows.foldl applyFlow st0) "withdraw_release" wid
              = 1 ∧
            countReasonRef (flows.foldl applyFlow st0)
              "withdraw_reject_release" wid = 0) ∧
        (w.status = .rejected →
            countReasonRef (flows.foldl applyFlow st0) "withdraw_release" wid
              = 0 ∧
            countReasonRef (flows.foldl applyFlow st0)
              "withdraw_reject_release" wid = 1)) :=
  widInv_foldl flows hwf (widInv_st0 wid)

/-- Witness for `c3_hold_release_accounting`: credit 10, auto-withdraw 3
with a failing gateway. -/
theorem c3_hold_release_accounting_witness :
    (findW ([SysFlow.fCredit "a" "bonus_claim" 10,
        SysFlow.fRequestAutoFail "a" "t" "w1" 3].foldl applyFlow st0) "w1" = none →
        countReasonRef ([SysFlow.fCredit "a" "bonus_claim" 10,
          SysFlow.fRequestAutoFail "a" "t" "w1" 3].foldl applyFlow st0)
          "withdraw_hold" "w1" = 0 ∧
        countReasonRef ([SysFlow.fCredit "a" "bonus_claim" 10,
          SysFlow.fRequestAutoFail "a" "t" "w1" 3].foldl applyFlow st0)
          "withdraw_release" "w1" = 0 ∧
        countReasonRef ([SysFlow.fCredit "a" "bonus_claim" 10,
          SysFlow.fRequestAutoFail "a" "t" "w1" 3].foldl applyFlow st0)
          "withdraw_reject_release" "w1" = 0) ∧
    (∀ w, findW ([SysFlow.fCredit "a" "bonus_claim" 10,
        SysFlow.fRequestAutoFail "a" "t" "w1" 3].foldl applyFlow st0) "w1"
          = some w →
        countReasonRef ([SysFlow.fCredit "a" "bonus_claim" 10,
          SysFlow.fRequestAutoFail "a" "t" "w1" 3].foldl applyFlow st0)
          "withdraw_hold" "w1" = 1 ∧
        ((w.status = .pending ∨ w.status = .processing ∨ w.status = .paid) →
            countReasonRef ([SysFlow.fCredit "a" "bonus_claim" 10,
              SysFlow.fRequestAutoFail "a" "t" "w1" 3].foldl applyFlow st0)
              "withdraw_release" "w1" = 0 ∧
            countReasonRef ([SysFlow.fCredit "a" "bonus_claim" 10,
              SysFlow.fRequestAutoFail "a" "t" "w1" 3].foldl applyFlow st0)
              "withdraw_reject_release" "w1" = 0) ∧
        (w.status = .failed →
            countReasonRef ([SysFlow.fCredit "a" "bonus_claim" 10,
              SysFlow.fRequestAutoFail "a" "t" "w1" 3].foldl applyFlow st0)
              "withdraw_release" "w1" = 1 ∧
            countReasonRef ([SysFlow.fCredit "a" "bonus_claim" 10,
              SysFlow.fRequestAutoFail "a" "t" "w1" 3].foldl applyFlow st0)
              "withdraw_reject_release" "w1" = 0) ∧
        (w.status = .rejected →
            countReasonRef ([SysFlow.fCredit "a" "bonus_claim" 10,
              SysFlow.fRequestAutoFail "a" "t" "w1" 3].foldl applyFlow st0)
              "withdraw_release" "w1" = 0 ∧
            countReasonRef ([SysFlow.fCredit "a" "bonus_claim" 10,
              SysFlow.fRequestAutoFail "a" "t" "w1" 3].foldl applyFlow st0)
              "withdraw_reject_release" "w1" = 1)) :=
  c3_hold_release_accounting
    [SysFlow.fCredit "a" "bonus_claim" 10,
     SysFlow.fRequestAutoFail "a" "t" "w1" 3]
    (by decide) "w1"

/-- C3 counterexample — a rejected withdrawal has ZERO ledger entries with
reason `withdraw_release` (its release is written as
`withdraw_reject_release`), refuting "it contains exactly one entry with
reason withdraw_release and that reference if and only if the withdrawal's
status is failed or rejected": balance 10, manual withdrawal of 8, admin
reject. -/
theorem c3_rejected_has_no_withdraw_release :
    (findW ([SysFlow.fCredit "a" "bonus_claim" 10,
        SysFlow.fRequest "a" "t" "w1" 8,
        SysFlow.fRejectH "w1"].foldl applyFlow st0) "w1").map WRow.status
      = some WStatus.rejected ∧
    countReasonRef ([SysFlow.fCredit "a" "bonus_claim" 10,
        SysFlow.fRequest "a" "t" "w1" 8,
        SysFlow.fRejectH "w1"].foldl applyFlow st0) "withdraw_release" "w1" = 0 ∧
    countReasonRef ([SysFlow.fCredit "a" "bonus_claim" 10,
        SysFlow.fRequest "a" "t" "w1" 8,
        SysFlow.fRejectH "w1"].foldl applyFlow st0) "withdraw_reject_release" "w1"
      = 1 := by
  refine ⟨rfl, rfl, rfl⟩

/-! ## C1 — two concurrent approve calls -/

/-- Program counter of one hardened-approve caller.  Its atomic steps are
the source's units of isolation (withdraw_routes.js 402-489): the
`FOR UPDATE` lock/check/set-processing transaction (#1), the `sendTon`
call, and the finalize step (transaction #2 on success, the catch path's
release on failure). -/
inductive APC
  | atStart
  | lockedRow (w : WRow)
  | gatewayDone (w : WRow) (g : Bool)
  | doneOk
  | doneFailed
  | doneBad
deriving DecidableEq

/-- One atomic step of a hardened-approve caller whose gateway outcome
will be `g`; finished callers do nothing. -/
def stepApproveH (wid : String) (g : Bool) : APC × St → APC × St
  | (.atStart, s) =>
      match approveLockTxn s wid with
      | .error _ => (.doneBad, s)
      | .ok (w, s1) => (.lockedRow w, s1)
  | (.lockedRow w, s) => (.gatewayDone w g, callGateway s)
  | (.gatewayDone _ true, s) => (.doneOk, markPaid s wid)
  | (.gatewayDone w false, s) => (.doneFailed, releaseAndFail s w)
  | (c, s) => (c, s)

/-- Run two concurrent hardened-approve callers under an interleaving
schedule: `true` steps caller 1, `false` steps caller 2. -/
def runTwoApprovals (wid : String) (g1 g2 : Bool) :
    List Bool → APC × APC × St → APC × APC × St
  | [], t => t
  | c :: rest, (p1, p2, s) =>
      if c then
        runTwoApprovals wid g1 g2 rest
          ((stepApproveH wid g1 (p1, s)).1, p2, (stepApproveH wid g1 (p1, s)).2)
      else
        runTwoApprovals wid g1 g2 rest
          (p1, (stepApproveH wid g2 (p2, s)).1, (stepApproveH wid g2 (p2, s)).2)

/-- A caller that has won the serialization point (or finished through
it). -/
def apcActive : APC → Bool
  | .atStart => false
  | .doneBad => false
  | _ => true

/-- Gateway invocations this caller has performed. -/
def apcGw : APC → Nat
  | .gatewayDone _ _ => 1
  | .doneOk => 1
  | .doneFailed => 1
  | _ => 0

/-- A caller whose HTTP request has completed. -/
def apcDone : APC → Bool
  | .doneOk => true
  | .doneFailed => true
  | .doneBad => true
  | _ => false

/-- The status column of the withdrawal row, as the next transaction would
read it. -/
def statusOf (s : St) (wid : String) : Option WStatus :=
  (findW s wid).map WRow.status

theorem statusOf_setWStatus_self_ne (s : St) (wid : String) (st : WStatus)
    (h : st ≠ .pending) : statusOf (setWStatus s wid st) wid ≠ some .pending := by
  unfold statusOf
  rw [findW_setWStatus_self]
  cases findW s wid with
  | none => simp
  | some w => simp [h]

theorem statusOf_setWStatus_ne (s : St) (wid' : String) (st : WStatus)
    (wid : String) (h : wid' ≠ wid) :
    statusOf (setWStatus s wid' st) wid = statusOf s wid := by
  unfold statusOf
  rw [findW_setWStatus_ne _ _ _ _ h]

theorem statusOf_releaseAndFail_ne_pending (s : St) (w : WRow) (wid : String)
    (h : statusOf s wid ≠ some .pending) :
    statusOf (releaseAndFail s w) wid ≠ some .pending := by
  unfold releaseAndFail
  by_cases hid : w.id = wid
  · rw [hid]
    exact statusOf_setWStatus_self_ne _ _ _ (by simp)
  · rw [statusOf_setWStatus_ne _ _ _ _ hid]
    exact h

theorem approveLockTxn_of_pending (s : St) (wid : String) (w : WRow)
    (hw : findW s wid = some w) (hp : w.status = .pending) :
    approveLockTxn s wid = .ok (w, setWStatus s wid .processing) := by
  unfold approveLockTxn
  rw [hw]
  exact if_neg (by simp [hp])

theorem approveLockTxn_of_not_pending (s : St) (wid : String)
    (h : statusOf s wid ≠ some .pending) :
    ∃ e, approveLockTxn s wid = .error e := by
  unfold approveLockTxn
  cases hf : findW s wid with
  | none => exact ⟨"not found", rfl⟩
  | some w =>
      refine ⟨"bad status", ?_⟩
      have hnp : w.status ≠ WStatus.pending := by
        intro hc
        apply h
        unfold statusOf
        rw [hf]
        simp [hc]
      exact if_pos hnp

/-- The two-caller invariant: the gateway-call count is accounted for by
the callers' progress, and either the row is still `pending` with both
callers at the start, or it is not `pending` and exactly one caller has
passed the serialization point. -/
def ApproveInv (wid : String) (base : Nat) (t : APC × APC × St) : Prop :=
  t.2.2.gatewayCalls = base + apcGw t.1 + apcGw t.2.1 ∧
  ((statusOf t.2.2 wid = some .pending ∧ t.1 = .atStart ∧ t.2.1 = .atStart)
    ∨ (statusOf t.2.2 wid ≠ some .pending ∧
        ((apcActive t.1 = true ∧ apcActive t.2.1 = false)
          ∨ (apcActive t.1 = false ∧ apcActive t.2.1 = true))))

theorem approveInv_swap {wid : String} {base : Nat} {p q : APC} {s : St}
    (h : ApproveInv wid base (p, q, s)) : ApproveInv wid base (q, p, s) := by
  obtain ⟨hgw, hd⟩ := h
  constructor
  · simp only at hgw ⊢
    omega
  · rcases hd with ⟨h1, h2, h3⟩ | ⟨h1, h2 | h2⟩
    · exact Or.inl ⟨h1, h3, h2⟩
    · exact Or.inr ⟨h1, Or.inr ⟨h2.2, h2.1⟩⟩
    · exact Or.inr ⟨h1, Or.inl ⟨h2.2, h2.1⟩⟩

theorem approveInv_step1 {wid : String} {base : Nat} {g : Bool}
    {p q : APC} {s : St} (h : ApproveInv wid base (p, q, s)) :
    ApproveInv wid base
      ((stepApproveH wid g (p, s)).1, q, (stepApproveH wid g (p, s)).2) := by
  obtain ⟨hgw, hdisj⟩ := h
  simp only at hgw
  cases p with
  | atStart =>
      rcases hdisj with ⟨hpend, _, hp2⟩ | ⟨hnp, hact⟩
      · obtain ⟨w, hw, hst⟩ : ∃ w, findW s wid = some w ∧ w.status = .pending := by
          unfold statusOf at hpend
          cases hf : findW s wid with
          | none => rw [hf] at hpend; simp at hpend
          | some w =>
              rw [hf] at hpend
              simp only [Option.map_some', Option.some.injEq] at hpend
              exact ⟨w, rfl, hpend⟩
        have hlock := approveLockTxn_of_pending s wid w hw hst
        simp only [stepApproveH, hlock]
        constructor
        · simpa [apcGw] using hgw
        · right
          refine ⟨statusOf_setWStatus_self_ne s wid .processing (by simp), ?_⟩
          left
          refine ⟨rfl, ?_⟩
          rw [hp2]
          rfl
      · obtain ⟨e, hlock⟩ := approveLockTxn_of_not_pending s wid hnp
        simp only [stepApproveH, hlock]
        constructor
        · simpa [apcGw] using hgw
        · right
          refine ⟨hnp, ?_⟩
          rcases hact with ⟨hpa, _⟩ | ⟨_, hqa⟩
          · exact absurd hpa (by simp [apcActive])
          · right
            exact ⟨rfl, hqa⟩
  | lockedRow w =>
      rcases hdisj with ⟨_, hp1, _⟩ | ⟨hnp, hact⟩
      · exact absurd hp1 (by simp)
      · simp only [stepApproveH]
        constructor
        · show (callGateway s).gatewayCalls = base + apcGw (.gatewayDone w g) + apcGw q
          show s.gatewayCalls + 1 = base + apcGw (.gatewayDone w g) + apcGw q
          simp only [apcGw] at hgw ⊢
          omega
        · right
          refine ⟨hnp, ?_⟩
          rcases hact with ⟨_, hqa⟩ | ⟨hpa, _⟩
          · left; exact ⟨rfl, hqa⟩
          · exact absurd hpa (by simp [apcActive])
  | gatewayDone w gg =>
      rcases hdisj with ⟨_, hp1, _⟩ | ⟨hnp, hact⟩
      · exact absurd hp1 (by simp)
      · cases gg with
        | true =>
            simp only [stepApproveH]
            constructor
            · show (markPaid s wid).gatewayCalls = base + apcGw .doneOk + apcGw q
              show s.gatewayCalls = base + apcGw .doneOk + apcGw q
              simp only [apcGw] at hgw ⊢
              omega
            · right
              refine ⟨statusOf_setWStatus_self_ne s wid .paid (by simp), ?_⟩
              rcases hact with ⟨_, hqa⟩ | ⟨hpa, _⟩
              · left; exact ⟨rfl, hqa⟩
              · exact absurd hpa (by simp [apcActive])
        | false =>
            simp only [stepApproveH]
            constructor
            · show (releaseAndFail s w).gatewayCalls
                  = base + apcGw .doneFailed + apcGw q
              show s.gatewayCalls = base + apcGw .doneFailed + apcGw q
              simp only [apcGw] at hgw ⊢
              omega
            · right
              refine ⟨statusOf_releaseAndFail_ne_pending s w wid hnp, ?_⟩
              rcases hact with ⟨_, hqa⟩ | ⟨hpa, _⟩
              · left; exact ⟨rfl, hqa⟩
              · exact absurd hpa (by simp [apcActive])
  | doneOk =>
      simp only [stepApproveH]
      exact ⟨hgw, hdisj⟩
  | doneFailed =>
      simp only [stepApproveH]
      exact ⟨hgw, hdisj⟩
  | doneBad =>
      simp only [stepApproveH]
      exact ⟨hgw, hdisj⟩

theorem approveInv_step2 {wid : String} {base : Nat} {g : Bool}
    {p q : APC} {s : St} (h : ApproveInv wid base (p, q, s)) :
    ApproveInv wid base
      (p, (stepApproveH wid g (q, s)).1, (stepApproveH wid g (q, s)).2) :=
  approveInv_swap (approveInv_step1 (approveInv_swap h))

theorem approveInv_run (wid : String) (g1 g2 : Bool) (sched : List Bool)
    {base : Nat} {t : APC × APC × St} (h : ApproveInv wid base t) :
    ApproveInv wid base (runTwoApprovals wid g1 g2 sched t) := by
  induction sched generalizing t with
  | nil => exact h
  | cons c rest ih =>
      obtain ⟨p1, p2, s⟩ := t
      cases c with
      | true =>
          simp only [runTwoApprovals, if_true]
          exact ih (approveInv_step1 h)
      | false =>
          simp only [runTwoApprovals, Bool.false_eq_true, if_false]
          exact ih (approveInv_step2 h)

theorem apcGw_inactive {p : APC} (h : apcActive p = false) : apcGw p = 0 := by
  cases p <;> simp [apcActive, apcGw] at h ⊢

theorem apcActive_done {p : APC} (ha : apcActive p = true)
    (hd : apcDone p = true) : (p = .doneOk ∨ p = .doneFailed) ∧ apcGw p = 1 := by
  cases p <;> simp [apcActive, apcDone, apcGw] at ha hd ⊢

theorem apcInactive_done {p : APC} (ha : apcActive p = false)
    (hd : apcDone p = true) : p = .doneBad := by
  cases p <;> simp [apcActive, apcDone] at ha hd ⊢

theorem apcGw_le_one (p : APC) : apcGw p ≤ 1 := by
  cases p <;> simp [apcGw]

theorem approveInv_conclusions {wid : String} {base : Nat}
    {t : APC × APC × St} (h : ApproveInv wid base t) :
    t.2.2.gatewayCalls ≤ base + 1 ∧
    (apcDone t.1 = true → apcDone t.2.1 = true →
      t.2.2.gatewayCalls = base + 1 ∧
      ((t.1 = .doneOk ∨ t.1 = .doneFailed) ∧ t.2.1 = .doneBad
        ∨ t.1 = .doneBad ∧ (t.2.1 = .doneOk ∨ t.2.1 = .doneFailed))) := by
  obtain ⟨p, q, s⟩ := t
  obtain ⟨hgw, hd⟩ := h
  simp only at hgw ⊢
  constructor
  · rcases hd with ⟨_, hp1, hp2⟩ | ⟨_, ⟨hpa, hqa⟩ | ⟨hpa, hqa⟩⟩
    · subst hp1; subst hp2
      simp [apcGw] at hgw
      omega
    · have h2 := apcGw_inactive hqa
      have h1 := apcGw_le_one p
      rw [hgw, h2]
      omega
    · have h2 := apcGw_inactive hpa
      have h1 := apcGw_le_one q
      rw [hgw, h2]
      omega
  · intro hd1 hd2
    rcases hd with ⟨_, hp1, _⟩ | ⟨_, ⟨hpa, hqa⟩ | ⟨hpa, hqa⟩⟩
    · subst hp1
      simp [apcDone] at hd1
    · obtain ⟨hterm, hgw1⟩ := apcActive_done hpa hd1
      have hbad := apcInactive_done hqa hd2
      have h0 := apcGw_inactive hqa
      constructor
      · rw [hgw, hgw1, h0]
      · exact Or.inl ⟨hterm, hbad⟩
    · obtain ⟨hterm, hgw1⟩ := apcActive_done hqa hd2
      have hbad := apcInactive_done hpa hd1
      have h0 := apcGw_inactive hpa
      constructor
      · rw [hgw, hgw1, h0]
      · exact Or.inr ⟨hbad, hterm⟩

/-- C1 (amended) — through the HARDENED approve variant, for every
interleaving of two concurrent approve calls on a withdrawal whose status
is `pending`, the payout gateway is invoked at most once; and when both
callers have completed, the gateway was invoked exactly once, exactly one
caller reached a terminal outcome (`paid` or `failed`) and the other
aborted with the `bad status` error at the lock-row/check-pending/
set-processing serialization point, before any gateway call.  (The claim
fails for the FIRST approve variant, which has no row lock: see the
counterexample.) -/
theorem c1_hardened_double_approve (s : St) (wid : String) (w : WRow)
    (g1 g2 : Bool) (sched : List Bool)
    (hw : findW s wid = some w) (hp : w.status = .pending) :
    (runTwoApprovals wid g1 g2 sched (.atStart, .atStart, s)).2.2.gatewayCalls
        ≤ s.gatewayCalls + 1 ∧
    (apcDone (runTwoApprovals wid g1 g2 sched (.atStart, .atStart, s)).1 = true →
      apcDone (runTwoApprovals wid g1 g2 sched (.atStart, .atStart, s)).2.1
          = true →
      (runTwoApprovals wid g1 g2 sched (.atStart, .atStart, s)).2.2.gatewayCalls
          = s.gatewayCalls + 1 ∧
      (((runTwoApprovals wid g1 g2 sched (.atStart, .atStart, s)).1 = .doneOk
          ∨ (runTwoApprovals wid g1 g2 sched (.atStart, .atStart, s)).1
              = .doneFailed) ∧
        (runTwoApprovals wid g1 g2 sched (.atStart, .atStart, s)).2.1 = .doneBad
        ∨ (runTwoApprovals wid g1 g2 sched (.atStart, .atStart, s)).1 = .doneBad
          ∧ ((runTwoApprovals wid g1 g2 sched (.atStart, .atStart, s)).2.1
              = .doneOk
            ∨ (runTwoApprovals wid g1 g2 sched (.atStart, .atStart, s)).2.1
              = .doneFailed))) := by
  have hinit : ApproveInv wid s.gatewayCalls (.atStart, .atStart, s) := by
    constructor
    · simp [apcGw]
    · left
      refine ⟨?_, rfl, rfl⟩
      unfold statusOf
      rw [hw]
      simp [hp]
  exact approveInv_conclusions (approveInv_run wid g1 g2 sched hinit)

/-- Witness for `c1_hardened_double_approve`: a concrete pending
withdrawal, caller 1 scheduled through all three steps, then caller 2. -/
theorem c1_hardened_double_approve_witness :
    (runTwoApprovals "w1" true true [true, true, true, false]
        (.atStart, .atStart,
          ⟨[⟨"a", -3, "withdraw_hold", some "w1"⟩],
           [⟨"w1", "a", "t", 3, .pending⟩], [], 0⟩)).2.2.gatewayCalls
        ≤ (⟨[⟨"a", -3, "withdraw_hold", some "w1"⟩],
           [⟨"w1", "a", "t", 3, .pending⟩], [], 0⟩ : St).gatewayCalls + 1 ∧
    (apcDone (runTwoApprovals "w1" true true [true, true, true, false]
        (.atStart, .atStart,
          ⟨[⟨"a", -3, "withdraw_hold", some "w1"⟩],
           [⟨"w1", "a", "t", 3, .pending⟩], [], 0⟩)).1 = true →
      apcDone (runTwoApprovals "w1" true true [true, true, true, false]
        (.atStart, .atStart,
          ⟨[⟨"a", -3, "withdraw_hold", some "w1"⟩],
           [⟨"w1", "a", "t", 3, .pending⟩], [], 0⟩)).2.1 = true →
      (runTwoApprovals "w1" true true [true, true, true, false]
        (.atStart, .atStart,
          ⟨[⟨"a", -3, "withdraw_hold", some "w1"⟩],
           [⟨"w1", "a", "t", 3, .pending⟩], [], 0⟩)).2.2.gatewayCalls
          = (⟨[⟨"a", -3, "withdraw_hold", some "w1"⟩],
           [⟨"w1", "a", "t", 3, .pending⟩], [], 0⟩ : St).gatewayCalls + 1 ∧
      (((runTwoApprovals "w1" true true [true, true, true, false]
        (.atStart, .atStart,
          ⟨[⟨"a", -3, "withdraw_hold", some "w1"⟩],
           [⟨"w1", "a", "t", 3, .pending⟩], [], 0⟩)).1 = .doneOk
          ∨ (runTwoApprovals "w1" true true [true, true, true, false]
        (.atStart, .atStart,
          ⟨[⟨"a", -3, "withdraw_hold", some "w1"⟩],
           [⟨"w1", "a", "t", 3, .pending⟩], [], 0⟩)).1 = .doneFailed) ∧
        (runTwoApprovals "w1" true true [true, true, true, false]
        (.atStart, .atStart,
          ⟨[⟨"a", -3, "withdraw_hold", some "w1"⟩],
           [⟨"w1", "a", "t", 3, .pending⟩], [], 0⟩)).2.1 = .doneBad
        ∨ (runTwoApprovals "w1" true true [true, true, true, false]
        (.atStart, .atStart,
          ⟨[⟨"a", -3, "withdraw_hold", some "w1"⟩],
           [⟨"w1", "a", "t", 3, .pending⟩], [], 0⟩)).1 = .doneBad
          ∧ ((runTwoApprovals "w1" true true [true, true, true, false]
        (.atStart, .atStart,
          ⟨[⟨"a", -3, "withdraw_hold", some "w1"⟩],
           [⟨"w1", "a", "t", 3, .pending⟩], [], 0⟩)).2.1 = .doneOk
            ∨ (runTwoApprovals "w1" true true [true, true, true, false]
        (.atStart, .atStart,
          ⟨[⟨"a", -3, "withdraw_hold", some "w1"⟩],
           [⟨"w1", "a", "t", 3, .pending⟩], [], 0⟩)).2.1 = .doneFailed))) :=
  c1_hardened_double_approve
    ⟨[⟨"a", -3, "withdraw_hold", some "w1"⟩],
           [⟨"w1", "a", "t", 3, .pending⟩], [], 0⟩
    "w1" ⟨"w1", "a", "t", 3, .pending⟩ true true [true, true, true, false]
    (by decide) rfl

/-- Program counter of a caller of the FIRST approve variant
(withdraw_routes.js 173-204): plain read (no lock, no status update),
gateway call, then `UPDATE ... SET status='paid'`; a gateway failure only
reports the error. -/
inductive V1PC
  | v1Start
  | v1Read (w : WRow)
  | v1GwDone (w : WRow) (g : Bool)
  | v1DoneOk
  | v1DoneErr
  | v1DoneBad
deriving DecidableEq

/-- One atomic step of a first-variant approve caller. -/
def stepApproveV1 (wid : String) (g : Bool) : V1PC × St → V1PC × St
  | (.v1Start, s) =>
      match approveV1Read s wid with
      | .error _ => (.v1DoneBad, s)
      | .ok w => (.v1Read w, s)
  | (.v1Read w, s) => (.v1GwDone w g, callGateway s)
  | (.v1GwDone _ true, s) => (.v1DoneOk, markPaid s wid)
  | (.v1GwDone _ false, s) => (.v1DoneErr, s)
  | (c, s) => (c, s)

/-- Run two concurrent first-variant approve callers under a schedule. -/
def runTwoApprovalsV1 (wid : String) (g1 g2 : Bool) :
    List Bool → V1PC × V1PC × St → V1PC × V1PC × St
  | [], t => t
  | c :: rest, (p1, p2, s) =>
      if c then
        runTwoApprovalsV1 wid g1 g2 rest
          ((stepApproveV1 wid g1 (p1, s)).1, p2, (stepApproveV1 wid g1 (p1, s)).2)
      else
        runTwoApprovalsV1 wid g1 g2 rest
          (p1, (stepApproveV1 wid g2 (p2, s)).1, (stepApproveV1 wid g2 (p2, s)).2)

/-- C1 counterexample — through the FIRST approve variant (the no-row-lock
code path the claim also covers), two concurrent approve calls on the same
`pending` withdrawal BOTH invoke the payout gateway: under the interleaving
read₁ read₂ gateway₁ gateway₂ finalize₁ finalize₂ both callers pass the
status check (each plain `SELECT` still sees `pending`), `sendTon` is
invoked twice, and both callers finish `paid` — refuting "the payout
gateway is invoked at most once for that id" and "exactly one caller
reaches a terminal status". -/
theorem c1_first_variant_double_payout :
    (runTwoApprovalsV1 "w1" true true
        [true, false, true, false, true, false]
        (.v1Start, .v1Start,
          ⟨[⟨"a", -3, "withdraw_hold", some "w1"⟩],
           [⟨"w1", "a", "t", 3, .pending⟩], [], 0⟩)).2.2.gatewayCalls = 2 ∧
    (runTwoApprovalsV1 "w1" true true
        [true, false, true, false, true, false]
        (.v1Start, .v1Start,
          ⟨[⟨"a", -3, "withdraw_hold", some "w1"⟩],
           [⟨"w1", "a", "t", 3, .pending⟩], [], 0⟩)).1 = V1PC.v1DoneOk ∧
    (runTwoApprovalsV1 "w1" true true
        [true, false, true, false, true, false]
        (.v1Start, .v1Start,
          ⟨[⟨"a", -3, "withdraw_hold", some "w1"⟩],
           [⟨"w1", "a", "t", 3, .pending⟩], [], 0⟩)).2.1 = V1PC.v1DoneOk := by
  refine ⟨rfl, rfl, rfl⟩
